/-
Verification of the convex-sql read-only SQL engine against its
natural-language specification.

The development shallowly embeds the engine sources:
  * src/lib/sql/types.ts       — AST node types (full engine generation)
  * src/lib/sql/parser.ts      — recursive-descent parser with the
                                 SELECT-only command gate
  * src/lib/sql/limits.ts      — QueryLimits configuration, the limits
                                 validator and the execution engine
                                 (executeSQLStatement and helpers)
  * src/lib/sql/lexer.ts       — absent from the source tree; its tokenize
                                 is modelled from the spec (section 4.1)

The database capability interface (DatabaseContext / QueryBuilder from
src/lib/sql/database.ts) is instantiated with an in-memory reference
database: a table is a list of rows in creation order, `filter` is
List.filter, `order` is identity / reverse over creation order, `take`
is List.take, and `withIndex` filters by the accumulated index
constraints.

JavaScript value conventions used throughout: a row is a string-keyed
association list; a missing key plays the role of `undefined` (reads of
an absent key and of a key assigned `undefined` are indistinguishable,
so assignment of an undefined value is modelled as omission); `null` is
the explicit Value.vNull.  Numbers are modelled as rationals; the float
coercion Number(string) (NaN on non-numeric strings) is modelled as 0
and no theorem below aggregates string-valued columns.  String
comparison via localeCompare is modelled as code-point comparison.
-/
import Mathlib

namespace ConvexSQL

/-! ### Characters and strings

Lean's built-in String.toUpper / trim / < do not reduce inside the
kernel, so ASCII equivalents over the underlying character lists are
used; SQL keywords and identifiers are ASCII. -/

def asciiUpperChar (c : Char) : Char :=
  if 'a' ≤ c ∧ c ≤ 'z' then Char.ofNat (c.toNat - 32) else c

def asciiLowerChar (c : Char) : Char :=
  if 'A' ≤ c ∧ c ≤ 'Z' then Char.ofNat (c.toNat + 32) else c

def upperStr (s : String) : String := String.mk (s.data.map asciiUpperChar)

def lowerStr (s : String) : String := String.mk (s.data.map asciiLowerChar)

def isWsChar (c : Char) : Bool :=
  c = ' ' ∨ c = '\t' ∨ c = '\n' ∨ c = '\r'

def trimStr (s : String) : String :=
  String.mk (((s.data.dropWhile isWsChar).reverse.dropWhile isWsChar).reverse)

def charsLt : List Char → List Char → Bool
  | _, [] => false
  | [], _ :: _ => true
  | a :: as, b :: bs => if a < b then true else if b < a then false else charsLt as bs

def strLtB (a b : String) : Bool := charsLt a.data b.data

def strContainsDot (s : String) : Bool := s.data.any (fun c => c = '.')

def charsIsPrefix : List Char → List Char → Bool
  | [], _ => true
  | _ :: _, [] => false
  | a :: as, b :: bs => a = b ∧ charsIsPrefix as bs

def strStarts (s pre : String) : Bool := charsIsPrefix pre.data s.data

/-- The segment after the first dot of a key, up to the next dot:
JavaScript key.split(".")[1]. -/
def afterFirstDot (s : String) : String :=
  String.mk (((s.data.dropWhile (fun c => c ≠ '.')).drop 1).takeWhile (fun c => c ≠ '.'))

def isDigitChar (c : Char) : Bool := '0' ≤ c ∧ c ≤ '9'

def isAlphaChar (c : Char) : Bool := ('a' ≤ c ∧ c ≤ 'z') ∨ ('A' ≤ c ∧ c ≤ 'Z') ∨ c = '_'

def isAlnumChar (c : Char) : Bool := isAlphaChar c ∨ isDigitChar c

def digitsToNat (cs : List Char) : Nat :=
  cs.foldl (fun n c => n * 10 + (c.toNat - 48)) 0

/-- JavaScript parseInt on a lexer NUMBER literal (digits, optionally
followed by a fractional part that parseInt discards). -/
def parseIntJS (s : String) : Nat := digitsToNat (s.data.takeWhile isDigitChar)

/-- JavaScript parseFloat on a lexer NUMBER literal `\d+(\.\d+)?`. -/
def parseFloatJS (s : String) : ℚ :=
  let ds := s.data.takeWhile isDigitChar
  match s.data.drop ds.length with
  | '.' :: r =>
      let fs := r.takeWhile isDigitChar
      (digitsToNat ds : ℚ) + (digitsToNat fs : ℚ) / ((10 : ℚ) ^ fs.length)
  | _ => (digitsToNat ds : ℚ)

/-! ### Values and rows -/

/-- The literal/value universe of the engine: string, number, boolean,
null (src/lib/sql/types.ts, WhereClause.value). -/
inductive Value where
  | vStr (s : String)
  | vNum (q : ℚ)
  | vBool (b : Bool)
  | vNull
deriving DecidableEq, Repr

/-- A row: field name (or table.field after a join) to value, in
JavaScript object insertion order.  An absent key is `undefined`. -/
abbrev Row := List (String × Value)

def rowGet (r : Row) (k : String) : Option Value :=
  (r.find? (fun p => p.1 = k)).map (fun p => p.2)

def rowHas (r : Row) (k : String) : Bool :=
  (r.find? (fun p => p.1 = k)).isSome

/-- JavaScript object assignment: an existing key keeps its position,
a new key is appended. -/
def setField (r : Row) (k : String) (v : Value) : Row :=
  match r with
  | [] => [(k, v)]
  | (k', v') :: rest => if k' = k then (k, v) :: rest else (k', v') :: setField rest k v

/-- Assignment of a possibly-undefined value: assigning `undefined` is
modelled as omission (reads cannot distinguish the two). -/
def setOpt (r : Row) (k : String) : Option Value → Row
  | some v => setField r k v
  | none => r

def isNullish : Option Value → Bool
  | none => true
  | some .vNull => true
  | some _ => false

/-- JavaScript `a ?? b`. -/
def coalesce (a b : Option Value) : Option Value := if isNullish a then b else a

/-- JavaScript Number() coercion; Number(string) is NaN or a float and
is modelled as 0 (no claim aggregates string-valued columns). -/
def toNum : Value → ℚ
  | .vNum q => q
  | .vBool b => if b then 1 else 0
  | .vNull => 0
  | .vStr _ => 0

/-- JavaScript String() rendering (numeric rendering is the Rat
rendering, injective on values, which is all its uses require). -/
def displayString : Value → String
  | .vStr s => s
  | .vNum q => toString q
  | .vBool b => if b then "true" else "false"
  | .vNull => "null"

/-- JSON.stringify of a value, used only as an opaque group key; string
escaping is not reproduced (the encoding stays injective across tags). -/
def jsonEncode : Value → String
  | .vStr s => "\"" ++ s ++ "\""
  | .vNum q => toString q
  | .vBool b => if b then "true" else "false"
  | .vNull => "null"

def serializeOpt : Option Value → String
  | none => "undefined"
  | some v => jsonEncode v

/-- JavaScript `<` on two non-null values: strings compare
lexicographically, anything else through numeric coercion. -/
def jsLtV (x y : Value) : Bool :=
  match x, y with
  | .vStr a, .vStr b => charsLt a.data b.data
  | _, _ => toNum x < toNum y

/-! ### AST (src/lib/sql/types.ts, full engine generation) -/

inductive CmpOp where
  | eq | ne | gt | lt | ge | le
deriving DecidableEq, Repr

def CmpOp.render : CmpOp → String
  | .eq => "=" | .ne => "!=" | .gt => ">" | .lt => "<" | .ge => ">=" | .le => "<="

inductive ColumnExpression where
  | star
  | tableStar (table : String)
  | column (table : Option String) (name : String) (colAlias : Option String)
  | function (name : String) (args : List ColumnExpression) (colAlias : Option String)

mutual

def decEqColumnExpression : (a b : ColumnExpression) → Decidable (a = b)
  | .star, .star => isTrue rfl
  | .star, .tableStar _ => isFalse (fun h => ColumnExpression.noConfusion h)
  | .star, .column _ _ _ => isFalse (fun h => ColumnExpression.noConfusion h)
  | .star, .function _ _ _ => isFalse (fun h => ColumnExpression.noConfusion h)
  | .tableStar _, .star => isFalse (fun h => ColumnExpression.noConfusion h)
  | .tableStar t1, .tableStar t2 =>
    if h : t1 = t2 then isTrue (by rw [h]) else
      isFalse (by intro hc; injection hc; contradiction)
  | .tableStar _, .column _ _ _ => isFalse (fun h => ColumnExpression.noConfusion h)
  | .tableStar _, .function _ _ _ => isFalse (fun h => ColumnExpression.noConfusion h)
  | .column _ _ _, .star => isFalse (fun h => ColumnExpression.noConfusion h)
  | .column _ _ _, .tableStar _ => isFalse (fun h => ColumnExpression.noConfusion h)
  | .column t1 n1 a1, .column t2 n2 a2 =>
    if h : t1 = t2 ∧ n1 = n2 ∧ a1 = a2 then isTrue (by rw [h.1, h.2.1, h.2.2]) else
      isFalse (by intro hc; injection hc with h1 h2 h3; exact h ⟨h1, h2, h3⟩)
  | .column _ _ _, .function _ _ _ => isFalse (fun h => ColumnExpression.noConfusion h)
  | .function _ _ _, .star => isFalse (fun h => ColumnExpression.noConfusion h)
  | .function _ _ _, .tableStar _ => isFalse (fun h => ColumnExpression.noConfusion h)
  | .function _ _ _, .column _ _ _ => isFalse (fun h => ColumnExpression.noConfusion h)
  | .function n1 args1 a1, .function n2 args2 a2 =>
    match decEqListColumnExpression args1 args2 with
    | isTrue hargs =>
      if h : n1 = n2 ∧ a1 = a2 then isTrue (by rw [h.1, hargs, h.2]) else
        isFalse (by intro hc; injection hc with h1 h2 h3; exact h ⟨h1, h3⟩)
    | isFalse hargs => isFalse (by intro hc; injection hc with h1 h2 h3; exact hargs h2)

def decEqListColumnExpression : (a b : List ColumnExpression) → Decidable (a = b)
  | [], [] => isTrue rfl
  | [], _ :: _ => isFalse (fun h => List.noConfusion h)
  | _ :: _, [] => isFalse (fun h => List.noConfusion h)
  | x :: xs, y :: ys =>
    match decEqColumnExpression x y with
    | isTrue h1 =>
      (match decEqListColumnExpression xs ys with
       | isTrue h2 => isTrue (by rw [h1, h2])
       | isFalse h2 => isFalse (by intro hc; injection hc with hh ht; exact h2 ht))
    | isFalse h1 => isFalse (by intro hc; injection hc with hh ht; exact h1 hh)

end

instance : DecidableEq ColumnExpression := decEqColumnExpression

def ColumnExpression.isFunction : ColumnExpression → Bool
  | .function _ _ _ => true
  | _ => false

inductive WhereClause where
  | and (left right : WhereClause)
  | or (left right : WhereClause)
  | comparison (table : Option String) (field : String) (op : CmpOp) (value : Value)
deriving DecidableEq

structure JoinCondition where
  leftTable : String
  leftField : String
  rightTable : String
  rightField : String
deriving DecidableEq

structure JoinClause where
  table : String
  index : Option String
  onConds : List JoinCondition
deriving DecidableEq

inductive Dir where
  | asc | desc
deriving DecidableEq, Repr

structure OrderByClause where
  table : Option String
  field : String
  direction : Dir
deriving DecidableEq

structure GroupByClause where
  table : Option String
  field : String
deriving DecidableEq

structure SelectStatement where
  columns : List ColumnExpression
  fromTable : String
  fromIndex : Option String
  joins : Option (List JoinClause)
  whereClause : Option WhereClause
  groupBy : Option (List GroupByClause)
  having : Option WhereClause
  orderBy : Option (List OrderByClause)
  limit : Option Nat
deriving DecidableEq

/-- JavaScript truthiness of `statement.limit`: undefined and 0 are both
falsy. -/
def limTruthy : Option Nat → Bool
  | some n => n ≠ 0
  | none => false

def limVal (l : Option Nat) : Nat := l.getD 0

def joinsTruthyNonempty : Option (List JoinClause) → Bool
  | some (_ :: _) => true
  | _ => false

def groupByNonempty : Option (List GroupByClause) → Bool
  | some (_ :: _) => true
  | _ => false

def orderByNonempty : Option (List OrderByClause) → Bool
  | some (_ :: _) => true
  | _ => false

/-! ### QueryLimits configuration (src/lib/sql/limits.ts) -/

structure QueryLimits where
  maxRows : Nat
  maxLimit : Nat
  requireLimit : Bool
  exemptTables : List String

def DEFAULT_LIMITS : QueryLimits :=
  { maxRows := 1000, maxLimit := 1000, requireLimit := true, exemptTables := [] }

/-! ### In-memory reference database (instance of DatabaseContext) -/

structure TableData where
  rows : List Row
  indexes : List (String × List String)
deriving DecidableEq

structure Database where
  tables : List (String × TableData)

def Database.lookupTable (db : Database) (t : String) : Option TableData :=
  (db.tables.find? (fun p => p.1 = t)).map (fun p => p.2)

def lookupIndexCols (db : Database) (t idx : String) : Option (List String) :=
  (db.lookupTable t).bind (fun td => (td.indexes.find? (fun p => p.1 = idx)).map (fun p => p.2))

/-! ### Lexer

Modelled from the spec: src/lib/sql/lexer.ts is not in the source tree
(only its importers are).  Spec section 4.1 fixes the token classes:
`*`, `,`, `.`, `@`, `(`, `)`, the operators =, !=, >, >=, <, <=,
single/double-quoted strings without escapes, integer/decimal numbers,
identifiers and case-insensitively matched keywords, whitespace
skipped, EOF-terminated, with distinct lexical errors for an unknown
character and an unterminated string.  The keyword list is the grammar
vocabulary of spec section 4.2 (the write-command keywords are required
by the parser gate and the security test suite). -/

structure Token where
  type : String
  value : String
  position : Nat
deriving DecidableEq, Repr

def KEYWORDS : List String :=
  ["SELECT", "FROM", "WHERE", "GROUP", "BY", "HAVING", "ORDER", "LIMIT",
   "AND", "OR", "ASC", "DESC", "AS", "INNER", "JOIN", "ON",
   "INSERT", "UPDATE", "DELETE", "DROP", "CREATE", "ALTER", "TRUNCATE",
   "REPLACE", "MERGE", "GRANT", "REVOKE"]

def tokenizeLoop : Nat → List Char → Nat → List Token → Except String (List Token)
  | 0, _, _, _ => .error "lexer fuel exhausted"
  | _ + 1, [], pos, acc => .ok (acc ++ [⟨"EOF", "", pos⟩])
  | fuel + 1, c :: rest, pos, acc =>
    if isWsChar c then tokenizeLoop fuel rest (pos + 1) acc
    else if c = '*' then tokenizeLoop fuel rest (pos + 1) (acc ++ [⟨"STAR", "*", pos⟩])
    else if c = ',' then tokenizeLoop fuel rest (pos + 1) (acc ++ [⟨"COMMA", ",", pos⟩])
    else if c = '.' then tokenizeLoop fuel rest (pos + 1) (acc ++ [⟨"DOT", ".", pos⟩])
    else if c = '@' then tokenizeLoop fuel rest (pos + 1) (acc ++ [⟨"AT", "@", pos⟩])
    else if c = '(' then tokenizeLoop fuel rest (pos + 1) (acc ++ [⟨"LPAREN", "(", pos⟩])
    else if c = ')' then tokenizeLoop fuel rest (pos + 1) (acc ++ [⟨"RPAREN", ")", pos⟩])
    else if c = '=' then tokenizeLoop fuel rest (pos + 1) (acc ++ [⟨"OPERATOR", "=", pos⟩])
    else if c = '!' ∧ rest.head? = some '=' then
      tokenizeLoop fuel (rest.drop 1) (pos + 2) (acc ++ [⟨"OPERATOR", "!=", pos⟩])
    else if c = '>' then
      if rest.head? = some '=' then
        tokenizeLoop fuel (rest.drop 1) (pos + 2) (acc ++ [⟨"OPERATOR", ">=", pos⟩])
      else tokenizeLoop fuel rest (pos + 1) (acc ++ [⟨"OPERATOR", ">", pos⟩])
    else if c = '<' then
      if rest.head? = some '=' then
        tokenizeLoop fuel (rest.drop 1) (pos + 2) (acc ++ [⟨"OPERATOR", "<=", pos⟩])
      else tokenizeLoop fuel rest (pos + 1) (acc ++ [⟨"OPERATOR", "<", pos⟩])
    else if c = '\'' ∨ c = '"' then
      let body := rest.takeWhile (fun d => d ≠ c)
      if body.length = rest.length then .error s!"Unterminated string at position {pos}"
      else tokenizeLoop fuel (rest.drop (body.length + 1)) (pos + body.length + 2)
        (acc ++ [⟨"STRING", String.mk body, pos⟩])
    else if isDigitChar c then
      let ds := (c :: rest).takeWhile isDigitChar
      match (c :: rest).drop ds.length with
      | '.' :: r3 =>
        let fs := r3.takeWhile isDigitChar
        tokenizeLoop fuel (r3.drop fs.length) (pos + ds.length + 1 + fs.length)
          (acc ++ [⟨"NUMBER", String.mk (ds ++ '.' :: fs), pos⟩])
      | r2 => tokenizeLoop fuel r2 (pos + ds.length) (acc ++ [⟨"NUMBER", String.mk ds, pos⟩])
    else if isAlphaChar c then
      let word := (c :: rest).takeWhile isAlnumChar
      let w := String.mk word
      let u := upperStr w
      let tok : Token := if KEYWORDS.contains u then ⟨"KEYWORD", u, pos⟩ else ⟨"IDENTIFIER", w, pos⟩
      tokenizeLoop fuel ((c :: rest).drop word.length) (pos + word.length) (acc ++ [tok])
    else .error s!"Unexpected character '{c}' at position {pos}"

/-- Lexer.tokenize; the constructor trims the input, so positions are
indices into the trimmed source. -/
def tokenize (input : String) : Except String (List Token) :=
  let t := trimStr input
  tokenizeLoop (t.data.length + 1) t.data 0 []

/-! ### Parser (src/lib/sql/parser.ts, full engine generation)

The source parser keeps an index cursor with peek/advance; the model
consumes tokens off the front of the list, which is the same thing.
peek past the end never happens on EOF-terminated streams; its default
below is inert. -/

def peekT (ts : List Token) : Token := ts.headD ⟨"EOF", "", 0⟩

def checkT (ts : List Token) (ty : String) (v : Option String) : Bool :=
  decide ((peekT ts).type = ty) &&
    (match v with | some s => decide ((peekT ts).value = s) | none => true)

def expectedMsg (ty : String) (v : Option String) (t : Token) : String :=
  "Expected " ++ ty ++ (match v with | some s => " '" ++ s ++ "'" | none => "") ++
    " but got " ++ t.type ++ " '" ++ t.value ++ "' at position " ++ toString t.position

def consumeT (ts : List Token) (ty : String) (v : Option String) :
    Except String (Token × List Token) :=
  if checkT ts ty v then .ok (peekT ts, ts.tail) else .error (expectedMsg ty v (peekT ts))

def strToOp (s : String) : CmpOp :=
  if s = "=" then .eq else if s = "!=" then .ne else if s = ">" then .gt
  else if s = "<" then .lt else if s = ">=" then .ge else .le

/-- Literal position of a comparison: STRING, NUMBER (parseFloat), or
the identifiers true/false/null (case-insensitive). -/
def parseComparisonValue (ts : List Token) : Except String (Value × List Token) :=
  if checkT ts "STRING" none then .ok (.vStr (peekT ts).value, ts.tail)
  else if checkT ts "NUMBER" none then .ok (.vNum (parseFloatJS (peekT ts).value), ts.tail)
  else if checkT ts "IDENTIFIER" none then
    let id := (peekT ts).value
    if lowerStr id = "true" then .ok (.vBool true, ts.tail)
    else if lowerStr id = "false" then .ok (.vBool false, ts.tail)
    else if lowerStr id = "null" then .ok (.vNull, ts.tail)
    else .error s!"Unexpected identifier in comparison: {id}"
  else .error s!"Expected value in comparison at position {(peekT ts).position}"

def parseFunctionArgsLoop : Nat → List Token → Except String (List ColumnExpression × List Token)
  | 0, _ => .error "parser fuel exhausted"
  | fuel + 1, ts =>
    if checkT ts "STAR" none then
      let ts := ts.tail
      if checkT ts "COMMA" none then do
        let (more, ts') ← parseFunctionArgsLoop fuel ts.tail
        .ok (.star :: more, ts')
      else .ok ([.star], ts)
    else do
      let (first, ts) ← consumeT ts "IDENTIFIER" none
      let (arg, ts) ←
        if checkT ts "DOT" none then
          let ts := ts.tail
          if checkT ts "STAR" none then
            pure ((.tableStar first.value : ColumnExpression), ts.tail)
          else do
            let (col, ts) ← consumeT ts "IDENTIFIER" none
            pure ((.column (some first.value) col.value none : ColumnExpression), ts)
        else
          pure ((.column none first.value none : ColumnExpression), ts)
      if checkT ts "COMMA" none then do
        let (more, ts') ← parseFunctionArgsLoop fuel ts.tail
        .ok (arg :: more, ts')
      else .ok ([arg], ts)

def parseFunctionArgs (ts : List Token) : Except String (List ColumnExpression × List Token) :=
  if checkT ts "RPAREN" none then .ok ([], ts) else parseFunctionArgsLoop (ts.length + 1) ts

def parseColumnsLoop : Nat → List Token → Except String (List ColumnExpression × List Token)
  | 0, _ => .error "parser fuel exhausted"
  | fuel + 1, ts => do
    let (first, ts) ← consumeT ts "IDENTIFIER" none
    let (col, ts) ←
      if checkT ts "LPAREN" none then do
        let (args, ts) ← parseFunctionArgs ts.tail
        let (_, ts) ← consumeT ts "RPAREN" none
        if checkT ts "KEYWORD" (some "AS") then do
          let (a, ts) ← consumeT ts.tail "IDENTIFIER" none
          pure ((.function (upperStr first.value) args (some a.value) : ColumnExpression), ts)
        else
          pure ((.function (upperStr first.value) args none : ColumnExpression), ts)
      else if checkT ts "DOT" none then
        let ts := ts.tail
        if checkT ts "STAR" none then
          pure ((.tableStar first.value : ColumnExpression), ts.tail)
        else do
          let (col, ts) ← consumeT ts "IDENTIFIER" none
          if checkT ts "KEYWORD" (some "AS") then do
            let (a, ts) ← consumeT ts.tail "IDENTIFIER" none
            pure ((.column (some first.value) col.value (some a.value) : ColumnExpression), ts)
          else
            pure ((.column (some first.value) col.value none : ColumnExpression), ts)
      else
        if checkT ts "KEYWORD" (some "AS") then do
          let (a, ts) ← consumeT ts.tail "IDENTIFIER" none
          pure ((.column none first.value (some a.value) : ColumnExpression), ts)
        else
          pure ((.column none first.value none : ColumnExpression), ts)
    if checkT ts "COMMA" none then do
      let (more, ts') ← parseColumnsLoop fuel ts.tail
      .ok (col :: more, ts')
    else .ok ([col], ts)

def parseColumns (ts : List Token) : Except String (List ColumnExpression × List Token) :=
  if checkT ts "STAR" none then .ok ([.star], ts.tail)
  else parseColumnsLoop (ts.length + 1) ts

def parseTableWithIndex (ts : List Token) :
    Except String ((String × Option String) × List Token) := do
  let (t, ts) ← consumeT ts "IDENTIFIER" none
  if checkT ts "AT" none then do
    let (idx, ts) ← consumeT ts.tail "IDENTIFIER" none
    .ok ((t.value, some idx.value), ts)
  else .ok ((t.value, none), ts)

mutual

/-- One rendered function argument, as formatFunctionArgs renders it. -/
def fmtArg : ColumnExpression → String
  | .star => "*"
  | .tableStar t => t ++ ".*"
  | .column t n _ => match t with | some tb => tb ++ "." ++ n | none => n
  | .function n args _ => n ++ "(" ++ fmtArgs args ++ ")"

/-- formatFunctionArgs (engine) and formatFunctionArgsForComparison
(parser) are textually the same algorithm; both are this rendering. -/
def fmtArgs : List ColumnExpression → String
  | [] => ""
  | [a] => fmtArg a
  | a :: rest => fmtArg a ++ ", " ++ fmtArgs rest

end

def formatFunctionArgs (args : List ColumnExpression) : String := fmtArgs args

/-- parseComparison: field (possibly table-qualified or a rendered
function-call signature), operator, literal. -/
def parseComparison (ts : List Token) : Except String (WhereClause × List Token) := do
  let (first, ts) ← consumeT ts "IDENTIFIER" none
  let (table, field, ts) ←
    if checkT ts "LPAREN" none then do
      let (args, ts) ← parseFunctionArgs ts.tail
      let (_, ts) ← consumeT ts "RPAREN" none
      pure ((none : Option String), first.value ++ "(" ++ fmtArgs args ++ ")", ts)
    else if checkT ts "DOT" none then do
      let (f, ts) ← consumeT ts.tail "IDENTIFIER" none
      pure (some first.value, f.value, ts)
    else
      pure ((none : Option String), first.value, ts)
  let (opTok, ts) ← consumeT ts "OPERATOR" none
  let (v, ts) ← parseComparisonValue ts
  .ok (.comparison table field (strToOp opTok.value) v, ts)

def parseAndExpressionLoop : Nat → WhereClause → List Token →
    Except String (WhereClause × List Token)
  | 0, _, _ => .error "parser fuel exhausted"
  | fuel + 1, left, ts =>
    if checkT ts "KEYWORD" (some "AND") then do
      let (right, ts') ← parseComparison ts.tail
      parseAndExpressionLoop fuel (.and left right) ts'
    else .ok (left, ts)

def parseAndExpression (ts : List Token) : Except String (WhereClause × List Token) := do
  let (left, ts') ← parseComparison ts
  parseAndExpressionLoop (ts'.length + 1) left ts'

def parseOrExpressionLoop : Nat → WhereClause → List Token →
    Except String (WhereClause × List Token)
  | 0, _, _ => .error "parser fuel exhausted"
  | fuel + 1, left, ts =>
    if checkT ts "KEYWORD" (some "OR") then do
      let (right, ts') ← parseAndExpression ts.tail
      parseOrExpressionLoop fuel (.or left right) ts'
    else .ok (left, ts)

def parseWhere (ts : List Token) : Except String (WhereClause × List Token) := do
  let (left, ts') ← parseAndExpression ts
  parseOrExpressionLoop (ts'.length + 1) left ts'

def parseGroupByLoop : Nat → List Token →
    Except String (List GroupByClause × List Token)
  | 0, _ => .error "parser fuel exhausted"
  | fuel + 1, ts => do
    let (first, ts) ← consumeT ts "IDENTIFIER" none
    let (item, ts) ←
      if checkT ts "DOT" none then do
        let (f, ts) ← consumeT ts.tail "IDENTIFIER" none
        pure (({ table := some first.value, field := f.value } : GroupByClause), ts)
      else
        pure (({ table := none, field := first.value } : GroupByClause), ts)
    if checkT ts "COMMA" none then do
      let (more, ts') ← parseGroupByLoop fuel ts.tail
      .ok (item :: more, ts')
    else .ok ([item], ts)

def parseGroupBy (ts : List Token) : Except String (List GroupByClause × List Token) :=
  parseGroupByLoop (ts.length + 1) ts

def parseOrderByLoop : Nat → List Token →
    Except String (List OrderByClause × List Token)
  | 0, _ => .error "parser fuel exhausted"
  | fuel + 1, ts => do
    let (first, ts) ← consumeT ts "IDENTIFIER" none
    let (table, field, ts) ←
      if checkT ts "DOT" none then do
        let (f, ts) ← consumeT ts.tail "IDENTIFIER" none
        pure (some first.value, f.value, ts)
      else
        pure ((none : Option String), first.value, ts)
    let (dir, ts) :=
      if checkT ts "KEYWORD" (some "ASC") then (Dir.asc, ts.tail)
      else if checkT ts "KEYWORD" (some "DESC") then (Dir.desc, ts.tail)
      else (Dir.asc, ts)
    let item : OrderByClause := { table := table, field := field, direction := dir }
    if checkT ts "COMMA" none then do
      let (more, ts') ← parseOrderByLoop fuel ts.tail
      .ok (item :: more, ts')
    else .ok ([item], ts)

def parseOrderBy (ts : List Token) : Except String (List OrderByClause × List Token) :=
  parseOrderByLoop (ts.length + 1) ts

def parseJoinEquality (ts : List Token) : Except String (JoinCondition × List Token) := do
  let (lt, ts) ← consumeT ts "IDENTIFIER" none
  let (_, ts) ← consumeT ts "DOT" none
  let (lf, ts) ← consumeT ts "IDENTIFIER" none
  let (opTok, ts) ← consumeT ts "OPERATOR" none
  if opTok.value ≠ "=" then
    .error s!"JOIN only supports '=' operator, got '{opTok.value}'"
  else do
    let (rt, ts) ← consumeT ts "IDENTIFIER" none
    let (_, ts) ← consumeT ts "DOT" none
    let (rf, ts) ← consumeT ts "IDENTIFIER" none
    .ok ({ leftTable := lt.value, leftField := lf.value,
           rightTable := rt.value, rightField := rf.value }, ts)

def parseJoinCondsLoop : Nat → List Token →
    Except String (List JoinCondition × List Token)
  | 0, _ => .error "parser fuel exhausted"
  | fuel + 1, ts =>
    if checkT ts "KEYWORD" (some "AND") then do
      let (c, ts') ← parseJoinEquality ts.tail
      let (more, ts'') ← parseJoinCondsLoop fuel ts'
      .ok (c :: more, ts'')
    else .ok ([], ts)

def parseJoin (ts : List Token) : Except String (JoinClause × List Token) := do
  let (_, ts) ← consumeT ts "KEYWORD" (some "INNER")
  let (_, ts) ← consumeT ts "KEYWORD" (some "JOIN")
  let ((table, index), ts) ← parseTableWithIndex ts
  let (_, ts) ← consumeT ts "KEYWORD" (some "ON")
  let (c, ts) ← parseJoinEquality ts
  let (more, ts) ← parseJoinCondsLoop (ts.length + 1) ts
  .ok ({ table := table, index := index, onConds := c :: more }, ts)

def parseJoinsLoop : Nat → List Token → Except String (List JoinClause × List Token)
  | 0, _ => .error "parser fuel exhausted"
  | fuel + 1, ts =>
    if checkT ts "KEYWORD" (some "INNER") then do
      let (j, ts') ← parseJoin ts
      let (more, ts'') ← parseJoinsLoop fuel ts'
      .ok (j :: more, ts'')
    else .ok ([], ts)

def parseSelect (ts : List Token) : Except String SelectStatement := do
  let (_, ts) ← consumeT ts "KEYWORD" (some "SELECT")
  let (columns, ts) ← parseColumns ts
  let (_, ts) ← consumeT ts "KEYWORD" (some "FROM")
  let ((fromTable, fromIndex), ts) ← parseTableWithIndex ts
  let (joins, ts) ← parseJoinsLoop (ts.length + 1) ts
  let (whereClause, ts) ←
    if checkT ts "KEYWORD" (some "WHERE") then do
      let (w, ts') ← parseWhere ts.tail
      pure (some w, ts')
    else pure ((none : Option WhereClause), ts)
  let (groupBy, ts) ←
    if checkT ts "KEYWORD" (some "GROUP") then do
      let (_, ts') ← consumeT ts.tail "KEYWORD" (some "BY")
      let (g, ts'') ← parseGroupBy ts'
      pure (some g, ts'')
    else pure ((none : Option (List GroupByClause)), ts)
  let (having, ts) ←
    if checkT ts "KEYWORD" (some "HAVING") then do
      let (h, ts') ← parseWhere ts.tail
      pure (some h, ts')
    else pure ((none : Option WhereClause), ts)
  let (orderBy, ts) ←
    if checkT ts "KEYWORD" (some "ORDER") then do
      let (_, ts') ← consumeT ts.tail "KEYWORD" (some "BY")
      let (o, ts'') ← parseOrderBy ts'
      pure (some o, ts'')
    else pure ((none : Option (List OrderByClause)), ts)
  let (limit, ts) ←
    if checkT ts "KEYWORD" (some "LIMIT") then do
      let (n, ts') ← consumeT ts.tail "NUMBER" none
      pure (some (parseIntJS n.value), ts')
    else pure ((none : Option Nat), ts)
  let (_, _) ← consumeT ts "EOF" none
  .ok { columns := columns, fromTable := fromTable, fromIndex := fromIndex,
        joins := if joins.isEmpty then none else some joins,
        whereClause := whereClause, groupBy := groupBy, having := having,
        orderBy := orderBy, limit := limit }

def unsupportedCommands : List String :=
  ["INSERT", "UPDATE", "DELETE", "DROP", "CREATE", "ALTER", "TRUNCATE",
   "REPLACE", "MERGE", "GRANT", "REVOKE"]

/-- Parser.parse: the SELECT-only gate followed by parseSelect
(src/lib/sql/parser.ts lines 302-352). -/
def parse (ts : List Token) : Except String SelectStatement :=
  match ts with
  | [] => .error "Empty SQL query"
  | firstToken :: _ =>
    if firstToken.type ≠ "KEYWORD" ∨ firstToken.value = "" ∨ trimStr firstToken.value = "" then
      .error (if firstToken.value ≠ "" then
                s!"Expected SQL command, got: {firstToken.value}"
              else "Empty SQL query")
    else
      let command := upperStr firstToken.value
      if unsupportedCommands.contains command then
        .error (s!"Write operations are not supported. '{command}' is a write operation. " ++
          "Only SELECT queries are allowed for safety.")
      else if command ≠ "SELECT" then
        .error s!"Unsupported SQL command: '{command}'. Only SELECT queries are supported."
      else parseSelect ts

/-- The composed tokenize-then-parse front end of executeSQL. -/
def parseSQL (sql : String) : Except String SelectStatement := do
  let ts ← tokenize sql
  parse ts

/-! ### Query limits validator (src/lib/sql/limits.ts lines 108-152) -/

/-- hasOnlyAggregateFunctions: no (nonempty) GROUP BY and every selected
column a FUNCTION (a nonempty column list). -/
def hasOnlyAggregateFunctions (stmt : SelectStatement) : Bool :=
  match stmt.groupBy with
  | some (_ :: _) => false
  | _ => !stmt.columns.isEmpty && stmt.columns.all ColumnExpression.isFunction

/-- validateQueryLimits; the source mutates statement.limit in place,
the model returns the updated statement. -/
def validateQueryLimits (stmt : SelectStatement) (limits : QueryLimits) :
    Except String SelectStatement :=
  let isAggregateOnly := hasOnlyAggregateFunctions stmt
  if limits.requireLimit ∧ ¬ limTruthy stmt.limit ∧ stmt.groupBy.isNone ∧
      isAggregateOnly = false ∧ ¬ limits.exemptTables.contains stmt.fromTable then
    .error (s!"Query must include a LIMIT clause for table '{stmt.fromTable}'. " ++
      s!"Maximum allowed LIMIT is {limits.maxLimit}. " ++
      "This prevents accidentally reading large tables.")
  else if limTruthy stmt.limit ∧ limits.maxLimit < limVal stmt.limit then
    .error (s!"LIMIT {limVal stmt.limit} exceeds maximum allowed limit of {limits.maxLimit}. " ++
      "Reduce your LIMIT or contact administrator to increase limits.")
  else if ¬ limTruthy stmt.limit ∧ stmt.groupBy.isNone ∧ isAggregateOnly = false then
    .ok { stmt with limit := some limits.maxRows }
  else .ok stmt

/-! ### Execution engine: predicates and index planning
(src/lib/sql/limits.ts lines 504-661 and 956-1001) -/

/-- One adapter comparison, shared by the WHERE filter builder and the
index range builder (the model database evaluates both the FilterBuilder
and the IndexFilterBuilder with this function, so an eq/gt/... issued on
either path means the same thing). -/
def cmpHolds (op : CmpOp) (o : Option Value) (v : Value) : Bool :=
  match op, o with
  | .eq, _ => o = some v
  | .ne, _ => !(o = some v)
  | .gt, some x => jsLtV v x
  | .gt, none => false
  | .lt, some x => jsLtV x v
  | .lt, none => false
  | .ge, some x => !(jsLtV x v)
  | .ge, none => false
  | .le, some x => !(jsLtV v x)
  | .le, none => false

/-- buildFilterExpression evaluated at one row of currentTable: a
comparison on another table passes, otherwise the adapter comparison on
the row's field. -/
def buildFilterExpression (r : Row) (w : WhereClause) (currentTable : String) : Bool :=
  match w with
  | .comparison t f op v =>
    (match t with
     | some tb => if tb ≠ currentTable then true else cmpHolds op (rowGet r f) v
     | none => cmpHolds op (rowGet r f) v)
  | .and l rgt => buildFilterExpression r l currentTable && buildFilterExpression r rgt currentTable
  | .or l rgt => buildFilterExpression r l currentTable || buildFilterExpression r rgt currentTable

/-- A comparison extracted for index planning. -/
structure Cond where
  field : String
  op : CmpOp
  value : Value
deriving DecidableEq, Repr

/-- extractComparisonConditions: AND-only traversal, own-table (or
unqualified) comparisons, in left-to-right push order; OR nodes
contribute nothing. -/
def extractComparisonConditions (w : WhereClause) (tableName : String) : List Cond :=
  match w with
  | .comparison t f op v =>
    if t.isNone ∨ t = some tableName then [⟨f, op, v⟩] else []
  | .and l r => extractComparisonConditions l tableName ++ extractComparisonConditions r tableName
  | .or _ _ => []

def condHolds (r : Row) (c : Cond) : Bool := cmpHolds c.op (rowGet r c.field) c.value

def joinCols (cols : List String) : String := String.intercalate "_and_" cols

/-- The index-column walk of buildIndexFilter: allCols is the full
ordered column list (used in messages), the final argument the columns
still to process; the result is the accumulated builder chain. -/
def buildIndexOps (conds : List Cond) (allCols : List String) :
    List String → Except String (List Cond)
  | [] => .ok []
  | c :: rest =>
    match conds.find? (fun cd => cd.field = c) with
    | none =>
      if rest.isEmpty then buildIndexOps conds allCols rest
      else .error s!"Index '{joinCols allCols}' requires WHERE condition on column '{c}' (prefix column)"
    | some cond =>
      match cond.op with
      | .eq => do
        let ops ← buildIndexOps conds allCols rest
        .ok (cond :: ops)
      | .ne => .error s!"Index '{joinCols allCols}' does not support operator '{CmpOp.render .ne}'"
      | _ =>
        if !rest.isEmpty then
          .error s!"Index '{joinCols allCols}' only supports range queries on the last column"
        else do
          let ops ← buildIndexOps conds allCols rest
          .ok (cond :: ops)

/-- buildIndexFilter: the range-builder callback; invoking it with no
WHERE clause is itself an error. -/
def buildIndexFilter (whereClause : Option WhereClause) (indexColumns : List String)
    (tableName : String) : Except String (List Cond) :=
  match whereClause with
  | none =>
    .error (s!"Index '{joinCols indexColumns}' requires WHERE conditions on columns: " ++
      String.intercalate ", " indexColumns)
  | some w => buildIndexOps (extractComparisonConditions w tableName) indexColumns indexColumns

/-- applyIndex: resolve the index, build its filter, and narrow the
scan; on the model database withIndex filters by the built constraints. -/
def applyIndex (db : Database) (rows : List Row) (tableName indexName : String)
    (whereClause : Option WhereClause) : Except String (List Row) :=
  match db.lookupTable tableName with
  | none => .error s!"Table '{tableName}' not found in schema"
  | some td =>
    match td.indexes.find? (fun p => p.1 = indexName) with
    | none =>
      .error (s!"Index '{indexName}' not found for table '{tableName}'. " ++
        "Available indexes: " ++ String.intercalate ", " (td.indexes.map (fun p => p.1)))
    | some pr => do
      let ops ← buildIndexFilter whereClause pr.2 tableName
      .ok (rows.filter (fun r => ops.all (condHolds r)))

/-- hasConditionsNotInIndex: some comparison (anywhere in the tree,
OR branches included) mentions a field outside the index columns. -/
def hasConditionsNotInIndex (w : WhereClause) (indexedFields : List String) : Bool :=
  match w with
  | .comparison _ f _ _ => !indexedFields.contains f
  | .and l r => hasConditionsNotInIndex l indexedFields || hasConditionsNotInIndex r indexedFields
  | .or l r => hasConditionsNotInIndex l indexedFields || hasConditionsNotInIndex r indexedFields

/-! ### Aggregate functions (src/lib/sql/limits.ts lines 1028-1108) -/

def mapE {α β : Type} (f : α → Except String β) : List α → Except String (List β)
  | [] => .ok []
  | a :: as => do
    let b ← f a
    let bs ← mapE f as
    .ok (b :: bs)

def colKeyOf (t : Option String) (n : String) : String :=
  match t with | some tb => tb ++ "." ++ n | none => n

def numOrZero (o : Option Value) : ℚ :=
  match o with
  | some v => if v = .vNull then 0 else toNum v
  | none => 0

/-- The values of a column that are neither null nor missing. -/
def nonNullValsAt (rows : List Row) (key : String) : List Value :=
  rows.filterMap (fun r =>
    match rowGet r key with
    | some v => if v = .vNull then none else some v
    | none => none)

/-- executeFunction: the aggregate/scalar function table. -/
def executeFunction (name : String) (args : List ColumnExpression) (row : Option Row)
    (allResults : List Row) : Except String Value :=
  if name = "COUNT" then
    match args with
    | [.star] => .ok (.vNum (allResults.length : ℚ))
    | (.column t n _) :: _ =>
      .ok (.vNum (((nonNullValsAt allResults (colKeyOf t n)).length : ℕ) : ℚ))
    | _ => .ok (.vNum (allResults.length : ℚ))
  else if name = "SUM" then
    match args with
    | [.column t n _] =>
      .ok (.vNum (allResults.foldl (fun s r => s + numOrZero (rowGet r (colKeyOf t n))) 0))
    | _ => .error "SUM function requires a single column argument"
  else if name = "AVG" then
    match args with
    | [.column t n _] =>
      let values := (nonNullValsAt allResults (colKeyOf t n)).map toNum
      if values.isEmpty then .ok .vNull
      else .ok (.vNum (values.foldl (fun a b => a + b) 0 / (values.length : ℚ)))
    | _ => .error "AVG function requires a single column argument"
  else if name = "MIN" then
    match args with
    | [.column t n _] =>
      match nonNullValsAt allResults (colKeyOf t n) with
      | [] => .ok .vNull
      | v :: rest => .ok (.vNum (rest.foldl (fun m x => min m (toNum x)) (toNum v)))
    | _ => .error "MIN function requires a single column argument"
  else if name = "MAX" then
    match args with
    | [.column t n _] =>
      match nonNullValsAt allResults (colKeyOf t n) with
      | [] => .ok .vNull
      | v :: rest => .ok (.vNum (rest.foldl (fun m x => max m (toNum x)) (toNum v)))
    | _ => .error "MAX function requires a single column argument"
  else if name = "ABS" then
    match args with
    | [.column t n _] =>
      (match row with
       | some r => .ok (.vNum |numOrZero (rowGet r (colKeyOf t n))|)
       | none => .error "ABS function requires a single column argument")
    | _ => .error "ABS function requires a single column argument"
  else .error s!"Unknown function: {name}"

/-! ### Grouping and HAVING (src/lib/sql/limits.ts lines 701-869) -/

def groupColKey (g : GroupByClause) : String := colKeyOf g.table g.field

/-- The group key of a row: each GROUP BY field's serialized value,
joined with ":::". -/
def groupKeyOf (gb : List GroupByClause) (r : Row) : String :=
  String.intercalate ":::"
    (gb.map (fun g => serializeOpt (coalesce (rowGet r (groupColKey g)) (rowGet r g.field))))

/-- JavaScript Map upsert: a new key is appended, an existing key keeps
its position and its bucket grows at the end. -/
def upsertGroup {κ : Type} [DecidableEq κ] : List (κ × List Row) → κ → Row → List (κ × List Row)
  | [], k, r => [(k, [r])]
  | (k', b) :: rest, k, r =>
    if k' = k then (k', b ++ [r]) :: rest else (k', b) :: upsertGroup rest k r

def buildGroups (gb : List GroupByClause) (results : List Row) : List (String × List Row) :=
  results.foldl (fun gs r => upsertGroup gs (groupKeyOf gb r) r) []

def isInGroupBy (gb : List GroupByClause) (t : Option String) (n : String) : Bool :=
  gb.any (fun g => g.field = n ∧ (g.table = t ∨ (g.table.isNone ∧ t.isNone)))

def groupRowColumns (gb : List GroupByClause) (groupRows : List Row) :
    List ColumnExpression → Row → Except String Row
  | [], acc => .ok acc
  | col :: rest, acc =>
    match col with
    | .function name args al => do
      let functionKey := name ++ "(" ++ fmtArgs args ++ ")"
      let outputKey := al.getD functionKey
      let v ← executeFunction name args none groupRows
      let acc := setField acc outputKey v
      let acc := if al.isSome ∧ outputKey ≠ functionKey then setField acc functionKey v else acc
      groupRowColumns gb groupRows rest acc
    | .column t n al =>
      if ¬ isInGroupBy gb t n then
        .error s!"Column '{colKeyOf t n}' must appear in GROUP BY clause or be used in an aggregate function"
      else
        groupRowColumns gb groupRows rest
          (setOpt acc (al.getD n) (coalesce (rowGet acc (colKeyOf t n)) (rowGet (groupRows.headD []) n)))
    | .star => .error "SELECT * is not allowed with GROUP BY. Specify columns explicitly."
    | .tableStar _ => .error "SELECT * is not allowed with GROUP BY. Specify columns explicitly."

/-- The result row of one group: GROUP BY columns first, then the
selected columns (aggregates over the full bucket). -/
def buildGroupRow (gb : List GroupByClause) (columns : List ColumnExpression)
    (groupRows : List Row) : Except String Row :=
  let row0 := groupRows.headD []
  let base := gb.foldl (fun acc g =>
    setOpt acc (groupColKey g) (coalesce (rowGet row0 (groupColKey g)) (rowGet row0 g.field))) []
  groupRowColumns gb groupRows columns base

/-- evaluateHaving: comparisons resolve the field on the group row
(rendered signature or alias); relational operators against a null
literal are false. -/
def evaluateHaving (row : Row) (h : WhereClause) : Bool :=
  match h with
  | .comparison _ f op v =>
    (match op with
     | .eq => cmpHolds .eq (rowGet row f) v
     | .ne => cmpHolds .ne (rowGet row f) v
     | _ => if v = .vNull then false else cmpHolds op (rowGet row f) v)
  | .and l r => evaluateHaving row l && evaluateHaving row r
  | .or l r => evaluateHaving row l || evaluateHaving row r

/-- The duplicate-function-key cleanup map at the end of applyGroupBy. -/
def cleanupRow (columns : List ColumnExpression) (gb : List GroupByClause) (row : Row) : Row :=
  let clean := columns.foldl (fun acc col =>
    match col with
    | .function name args al =>
      let outputKey := al.getD (name ++ "(" ++ fmtArgs args ++ ")")
      setOpt acc outputKey (rowGet row outputKey)
    | .column t n al =>
      setOpt acc (al.getD n) (coalesce (rowGet row (colKeyOf t n)) (rowGet row n))
    | _ => acc) []
  gb.foldl (fun acc g =>
    if rowHas acc (groupColKey g) then acc
    else setOpt acc (groupColKey g) (rowGet row (groupColKey g))) clean

/-- applyGroupBy: build groups in first-occurrence order, compute each
group's row, filter by HAVING, clean up duplicate keys. -/
def applyGroupBy (results : List Row) (stmt : SelectStatement) : Except String (List Row) :=
  match stmt.groupBy with
  | some (g :: gs) => do
    let gb := g :: gs
    let groupedResults ← mapE (fun pr => buildGroupRow gb stmt.columns pr.2) (buildGroups gb results)
    let filtered :=
      match stmt.having with
      | some h => groupedResults.filter (fun r => evaluateHaving r h)
      | none => groupedResults
    .ok (filtered.map (cleanupRow stmt.columns gb))
  | _ => .ok results

/-! ### In-memory ORDER BY (src/lib/sql/limits.ts lines 663-699) -/

def strCompare (x y : String) : ℚ :=
  if charsLt x.data y.data then -1 else if charsLt y.data x.data then 1 else 0

def orderKeyOf (o : OrderByClause) : String := colKeyOf o.table o.field

/-- The sort comparator: per key, nulls last ascending / first
descending, strings by (modelled) localeCompare, numbers by difference,
otherwise String() renderings compared; ties fall to the next key. -/
def cmpRows : List OrderByClause → Row → Row → ℚ
  | [], _, _ => 0
  | o :: rest, a, b =>
    let aVal := coalesce (rowGet a (orderKeyOf o)) (rowGet a o.field)
    let bVal := coalesce (rowGet b (orderKeyOf o)) (rowGet b o.field)
    if isNullish aVal ∧ isNullish bVal then cmpRows rest a b
    else if isNullish aVal then (if o.direction = .asc then 1 else -1)
    else if isNullish bVal then (if o.direction = .asc then -1 else 1)
    else
      let comparison : ℚ :=
        match aVal, bVal with
        | some (.vStr x), some (.vStr y) => strCompare x y
        | some (.vNum x), some (.vNum y) => x - y
        | some x, some y => strCompare (displayString x) (displayString y)
        | _, _ => 0
      if comparison ≠ 0 then (if o.direction = .asc then comparison else -comparison)
      else cmpRows rest a b

/-- applyOrderBy: a stable sort by the comparator (JavaScript
Array.prototype.sort is stable; insertion sort is the model's stable
sort). -/
def applyOrderBy (results : List Row) (orderBy : List OrderByClause) : List Row :=
  if orderBy.isEmpty then results
  else List.insertionSort (fun a b => cmpRows orderBy a b ≤ 0) results

/-! ### Projection (src/lib/sql/limits.ts lines 871-954) -/

def ColumnExpression.isPlainColumn : ColumnExpression → Bool
  | .column _ _ _ => true
  | _ => false

def aggregateRow (results : List Row) : List ColumnExpression → Row → Except String Row
  | [], acc => .ok acc
  | col :: rest, acc =>
    match col with
    | .function name args al => do
      let v ← executeFunction name args none results
      aggregateRow results rest (setField acc (al.getD (name ++ "(" ++ fmtArgs args ++ ")")) v)
    | _ => aggregateRow results rest acc

/-- One projected row.  The source splits the TABLE_STAR-present and
plain branches; both handle COLUMN and FUNCTION identically and each
silently skips the variants it cannot meet, so one map serves both. -/
def projectRowCols (results : List Row) : List ColumnExpression → Row → Row →
    Except String Row
  | [], _, acc => .ok acc
  | col :: rest, row, acc =>
    match col with
    | .column t n al =>
      projectRowCols results rest row
        (setOpt acc (al.getD n) (coalesce (rowGet row (colKeyOf t n)) (rowGet row n)))
    | .function name args al => do
      let v ← executeFunction name args (some row) results
      projectRowCols results rest row
        (setField acc (al.getD (name ++ "(" ++ fmtArgs args ++ ")")) v)
    | .tableStar t =>
      projectRowCols results rest row
        (row.foldl (fun acc2 kv =>
          if strStarts kv.1 (t ++ ".") then setField acc2 (afterFirstDot kv.1) kv.2 else acc2) acc)
    | .star => projectRowCols results rest row acc

/-- projectColumns: aggregate-only collapses to one row, SELECT * passes
rows through, otherwise a per-row projection. -/
def projectColumns (results : List Row) (columns : List ColumnExpression)
    (fromTable : String) (joins : Option (List JoinClause)) : Except String (List Row) :=
  let hasOnlyFunctions := !columns.isEmpty && columns.all ColumnExpression.isFunction
  let hasAnyFunctions := columns.any ColumnExpression.isFunction
  let hasAnyPlainColumns := columns.any ColumnExpression.isPlainColumn
  if hasAnyFunctions ∧ hasAnyPlainColumns then
    .error "Mixing aggregates with columns requires GROUP BY (not implemented)"
  else if hasOnlyFunctions then do
    let row ← aggregateRow results columns []
    .ok [row]
  else
    match columns with
    | [.star] => .ok results
    | _ => mapE (fun r => projectRowCols results columns r []) results

/-! ### Join execution (src/lib/sql/limits.ts lines 286-502) -/

/-- getValue inside performJoin: a join-table reference reads the right
row, otherwise the prefixed key of the merged left row, else the bare
field when the table is the FROM table.  The JavaScript original would
crash reading a field of a null right row; that call only arises on the
single-condition fast path with the left side of the equality naming the
join table, where the model reads the empty row instead. -/
def joinGetValue (joinTable fromTable : String) (leftRow : Row) (rightRow : Option Row)
    (table field : String) : Option Value :=
  if table = joinTable then rowGet (rightRow.getD []) field
  else if rowHas leftRow (table ++ "." ++ field) then rowGet leftRow (table ++ "." ++ field)
  else if table = fromTable ∧ rowHas leftRow field then rowGet leftRow field
  else none

/-- Merge one matching pair into a wide row: left keys that already
carry a dot stay, other left keys get the FROM prefix, right keys get
the join-table prefix. -/
def mergeJoinedRow (fromTable joinTable : String) (leftRow rightRow : Row) : Row :=
  let m1 := leftRow.foldl (fun acc kv =>
    if strContainsDot kv.1 then setField acc kv.1 kv.2
    else setField acc (fromTable ++ "." ++ kv.1) kv.2) []
  rightRow.foldl (fun acc kv => setField acc (joinTable ++ "." ++ kv.1) kv.2) m1

def buildKeyGroups (field : String) (rows : List Row) : List (Option Value × List Row) :=
  rows.foldl (fun gs r => upsertGroup gs (rowGet r field) r) []

def mapFindV (m : List (Option Value × List Row)) (k : Option Value) : Option (List Row) :=
  (m.find? (fun p => p.1 = k)).map (fun p => p.2)

/-- performJoin: fetch the right table (index hint with silent
fallback, then the global WHERE restricted to the join table), build the
single-condition hash map when applicable, and inner-join in memory. -/
def performJoin (db : Database) (leftResults : List Row) (join : JoinClause)
    (fromTable : String) (globalWhereClause : Option WhereClause) :
    Except String (List Row) :=
  match db.lookupTable join.table with
  | none => .error s!"Table '{join.table}' does not exist"
  | some rt =>
    let afterIdx :=
      match join.index with
      | some idx =>
        match applyIndex db rt.rows join.table idx globalWhereClause with
        | .ok rs => rs
        | .error _ => rt.rows
      | none => rt.rows
    let rightResults :=
      match globalWhereClause with
      | some w => afterIdx.filter (fun r => buildFilterExpression r w join.table)
      | none => afterIdx
    let onConditions := join.onConds
    let singleMap : Option (List (Option Value × List Row)) :=
      match onConditions with
      | [c] => if c.rightTable = join.table then some (buildKeyGroups c.rightField rightResults)
               else none
      | _ => none
    .ok (leftResults.foldl (fun joined leftRow =>
      let candidates :=
        match singleMap, onConditions with
        | some m, c :: _ =>
          (mapFindV m (joinGetValue join.table fromTable leftRow none c.leftTable c.leftField)).getD []
        | _, _ => rightResults
      joined ++ (candidates.filter (fun rightRow =>
          onConditions.all (fun c =>
            joinGetValue join.table fromTable leftRow (some rightRow) c.leftTable c.leftField =
              joinGetValue join.table fromTable leftRow (some rightRow) c.rightTable c.rightField))
        ).map (mergeJoinedRow fromTable join.table leftRow)) [])

def joinsLoop (db : Database) (fromTable : String) (gw : Option WhereClause) :
    List JoinClause → List Row → Except String (List Row)
  | [], acc => .ok acc
  | j :: rest, acc => do
    let acc' ← performJoin db acc j fromTable gw
    joinsLoop db fromTable gw rest acc'

/-! ### Statement execution (src/lib/sql/limits.ts lines 154-374) -/

/-- canUseNativeOrdering: first ORDER BY key is _creationTime, or the
statement carries an index hint whose first column is that key. -/
def canUseNativeOrdering (db : Database) (stmt : SelectStatement) : Bool :=
  match stmt.orderBy with
  | some (o :: _) =>
    if o.field = "_creationTime" then true
    else
      match stmt.fromIndex with
      | some idx =>
        (match (lookupIndexCols db stmt.fromTable idx).getD [] with
         | c :: _ => c = o.field
         | [] => false)
      | none => false
  | _ => false

/-- The retrieval stage of the simple-SELECT path: index narrowing plus
residual filter (or the plain WHERE filter), then either the native
order + take fast path or a full collect. -/
def scanRows (db : Database) (td : TableData) (stmt : SelectStatement) :
    Except String (List Row) := do
  let base ←
    match stmt.fromIndex with
    | some idx => do
      let afterIdx ← applyIndex db td.rows stmt.fromTable idx stmt.whereClause
      match stmt.whereClause with
      | some w =>
        if hasConditionsNotInIndex w ((lookupIndexCols db stmt.fromTable idx).getD []) then
          pure (afterIdx.filter (fun r => buildFilterExpression r w stmt.fromTable))
        else pure afterIdx
      | none => pure afterIdx
    | none =>
      match stmt.whereClause with
      | some w => pure (td.rows.filter (fun r => buildFilterExpression r w stmt.fromTable))
      | none => pure td.rows
  match stmt.orderBy with
  | some (o :: _) =>
    if canUseNativeOrdering db stmt then
      let ordered := match o.direction with | .asc => base | .desc => base.reverse
      if limTruthy stmt.limit ∧ ¬ hasOnlyAggregateFunctions stmt then
        pure (ordered.take (limVal stmt.limit))
      else pure ordered
    else pure base
  | _ => pure base

/-- executeSelectWithJoin. -/
def executeSelectWithJoin (db : Database) (td : TableData) (stmt : SelectStatement)
    (limits : QueryLimits) : Except String (List Row) :=
  let joins := stmt.joins.getD []
  match joins.find? (fun j => (db.lookupTable j.table).isNone) with
  | some j => .error s!"Table '{j.table}' does not exist"
  | none => do
    let afterIdx ←
      match stmt.fromIndex with
      | some idx => applyIndex db td.rows stmt.fromTable idx stmt.whereClause
      | none => pure td.rows
    let leftRows :=
      match stmt.whereClause with
      | some w => afterIdx.filter (fun r => buildFilterExpression r w stmt.fromTable)
      | none => afterIdx
    let leftResults ← joinsLoop db stmt.fromTable stmt.whereClause joins leftRows
    if groupByNonempty stmt.groupBy then do
      let grouped ← applyGroupBy leftResults stmt
      let ordered :=
        if stmt.orderBy.isSome then applyOrderBy grouped (stmt.orderBy.getD []) else grouped
      let limited := if limTruthy stmt.limit then ordered.take (limVal stmt.limit) else ordered
      pure (if limits.maxRows < limited.length then limited.take limits.maxRows else limited)
    else do
      let projected ← projectColumns leftResults stmt.columns stmt.fromTable stmt.joins
      let ordered :=
        if stmt.orderBy.isSome then applyOrderBy projected (stmt.orderBy.getD []) else projected
      let limited := if limTruthy stmt.limit then ordered.take (limVal stmt.limit) else ordered
      pure (if limits.maxRows < limited.length then limited.take limits.maxRows else limited)

/-- executeSQLStatement on the model database. -/
def executeSQLStatement (db : Database) (stmt : SelectStatement) (limits : QueryLimits) :
    Except String (List Row) :=
  match db.lookupTable stmt.fromTable with
  | none => .error s!"Table '{stmt.fromTable}' does not exist"
  | some td =>
    if joinsTruthyNonempty stmt.joins then executeSelectWithJoin db td stmt limits
    else do
      let results ← scanRows db td stmt
      if groupByNonempty stmt.groupBy then do
        let grouped ← applyGroupBy results stmt
        let ordered :=
          if stmt.orderBy.isSome then applyOrderBy grouped (stmt.orderBy.getD []) else grouped
        pure (if limTruthy stmt.limit then ordered.take (limVal stmt.limit) else ordered)
      else
        let results :=
          if ¬ canUseNativeOrdering db stmt ∧ orderByNonempty stmt.orderBy then
            applyOrderBy results (stmt.orderBy.getD [])
          else results
        let results :=
          if ¬ canUseNativeOrdering db stmt ∧ limTruthy stmt.limit ∧
              ¬ hasOnlyAggregateFunctions stmt then
            results.take (limVal stmt.limit)
          else results
        do
          let projected ← projectColumns results stmt.columns stmt.fromTable none
          if hasOnlyAggregateFunctions stmt ∧ limTruthy stmt.limit then
            let limited := projected.take (limVal stmt.limit)
            pure (if limits.maxRows < limited.length then limited.take limits.maxRows else limited)
          else
            pure (if limits.maxRows < projected.length then projected.take limits.maxRows
                  else projected)

/-- executeSQL: tokenize, parse, validate, execute. -/
def executeSQL (db : Database) (sql : String) (limits : QueryLimits) :
    Except String (List Row) := do
  let ts ← tokenize sql
  let stmt ← parse ts
  let stmt ← validateQueryLimits stmt limits
  executeSQLStatement db stmt limits

/-! ## Supporting lemmas -/

theorem mapE_length {α β : Type} (f : α → Except String β) :
    ∀ (l : List α) (l' : List β), mapE f l = .ok l' → l'.length = l.length := by
  intro l
  induction l with
  | nil =>
    intro l' h
    simp only [mapE, Except.ok.injEq] at h
    subst h
    rfl
  | cons a as ih =>
    intro l' h
    simp only [mapE, bind, Except.instMonad, Except.bind] at h
    cases hf : f a with
    | error e => rw [hf] at h; exact absurd h (by simp)
    | ok b =>
      rw [hf] at h
      cases hrec : mapE f as with
      | error e => rw [hrec] at h; exact absurd h (by simp)
      | ok bs =>
        rw [hrec] at h
        simp only [Except.ok.injEq] at h
        subst h
        simp [ih bs hrec]

theorem projectColumns_length_of_not_onlyFunctions
    (results : List Row) (columns : List ColumnExpression) (ft : String)
    (joins : Option (List JoinClause)) (out : List Row)
    (hno : (!columns.isEmpty && columns.all ColumnExpression.isFunction) = false)
    (h : projectColumns results columns ft joins = .ok out) :
    out.length = results.length := by
  simp only [projectColumns, hno, Bool.false_eq_true, if_false] at h
  split at h
  · exact absurd h (by simp)
  · split at h
    · simp only [Except.ok.injEq] at h; simp [← h]
    · exact mapE_length _ _ _ h

theorem applyOrderBy_length (results : List Row) (orderBy : List OrderByClause) :
    (applyOrderBy results orderBy).length = results.length := by
  unfold applyOrderBy
  split
  · rfl
  · exact List.length_insertionSort _ _

instance exceptDecEq {α β : Type} [DecidableEq α] [DecidableEq β] :
    DecidableEq (Except α β) := fun x y =>
  match x, y with
  | .ok a, .ok b =>
    if h : a = b then isTrue (by rw [h]) else
      isFalse (by intro hc; injection hc; contradiction)
  | .error a, .error b =>
    if h : a = b then isTrue (by rw [h]) else
      isFalse (by intro hc; injection hc; contradiction)
  | .ok _, .error _ => isFalse (by intro hc; exact Except.noConfusion hc)
  | .error _, .ok _ => isFalse (by intro hc; exact Except.noConfusion hc)

theorem foldl_add_eq_sum (f : Row → ℚ) :
    ∀ (l : List Row) (init : ℚ), l.foldl (fun s r => s + f r) init = init + (l.map f).sum := by
  intro l
  induction l with
  | nil => intro init; simp
  | cons a as ih => intro init; simp [List.foldl_cons, ih]; ring

theorem isNullish_numOrZero {o : Option Value} (h : isNullish o = true) : numOrZero o = 0 := by
  cases o with
  | none => rfl
  | some v => cases v <;> simp_all [isNullish, numOrZero]

/-! ## C7 — index column walk policy -/

/-- C7: When an index hint with ordered columns is applied against the
AND-extracted WHERE comparisons, the walk of buildIndexFilter treats
each column as follows: an `=` condition on any column is applied via eq
and the walk continues; a range condition (>, <, >=, <=) is applied only
when the column is the last index column and raises the
range-on-last-column plan error otherwise; a missing condition on a
non-last column raises the error naming that column as a prefix column;
and a missing condition on the last column is skipped without error,
leaving the index scan without further narrowing. -/
theorem buildIndexFilter_column_policy :
    (∀ (conds : List Cond) (allCols : List String) (c : String) (rest : List String) (cnd : Cond),
        conds.find? (fun cd => cd.field = c) = some cnd → cnd.op = .eq →
        buildIndexOps conds allCols (c :: rest) =
          (buildIndexOps conds allCols rest).map (fun ops => cnd :: ops)) ∧
    (∀ (conds : List Cond) (allCols : List String) (c : String) (cnd : Cond),
        conds.find? (fun cd => cd.field = c) = some cnd →
        (cnd.op = .gt ∨ cnd.op = .lt ∨ cnd.op = .ge ∨ cnd.op = .le) →
        buildIndexOps conds allCols [c] = .ok [cnd]) ∧
    (∀ (conds : List Cond) (allCols : List String) (c : String) (rest : List String) (cnd : Cond),
        conds.find? (fun cd => cd.field = c) = some cnd →
        (cnd.op = .gt ∨ cnd.op = .lt ∨ cnd.op = .ge ∨ cnd.op = .le) →
        rest ≠ [] →
        buildIndexOps conds allCols (c :: rest) =
          .error s!"Index '{joinCols allCols}' only supports range queries on the last column") ∧
    (∀ (conds : List Cond) (allCols : List String) (c : String) (rest : List String),
        conds.find? (fun cd => cd.field = c) = none → rest ≠ [] →
        buildIndexOps conds allCols (c :: rest) =
          .error s!"Index '{joinCols allCols}' requires WHERE condition on column '{c}' (prefix column)") ∧
    (∀ (conds : List Cond) (allCols : List String) (c : String),
        conds.find? (fun cd => cd.field = c) = none →
        buildIndexOps conds allCols [c] = .ok []) := by
  refine ⟨?_, ?_, ?_, ?_, ?_⟩
  · intro conds allCols c rest cnd hfind hop
    simp only [buildIndexOps, hfind, hop]
    cases hrec : buildIndexOps conds allCols rest <;>
      simp [bind, Except.instMonad, Except.bind, Except.map]
  · intro conds allCols c cnd hfind hop
    simp only [buildIndexOps, hfind]
    rcases hop with h | h | h | h <;> rw [h] <;> rfl
  · intro conds allCols c rest cnd hfind hop hne
    simp only [buildIndexOps, hfind]
    have : rest.isEmpty = false := by
      cases rest with
      | nil => exact absurd rfl hne
      | cons x xs => rfl
    rcases hop with h | h | h | h <;> rw [h] <;> simp [this]
  · intro conds allCols c rest hfind hne
    simp only [buildIndexOps, hfind]
    have : rest.isEmpty = false := by
      cases rest with
      | nil => exact absurd rfl hne
      | cons x xs => rfl
    simp [this]
  · intro conds allCols c hfind
    simp only [buildIndexOps, hfind]
    rfl

/-- C7 witness: the five clauses of the walk policy at concrete inputs
(index a_and_b, and a single-column index b). -/
theorem buildIndexFilter_column_policy_witness :
    (buildIndexOps [⟨"a", .eq, .vNum 1⟩] ["a", "b"] ["a", "b"] =
      (buildIndexOps [⟨"a", .eq, .vNum 1⟩] ["a", "b"] ["b"]).map
        (fun ops => (⟨"a", .eq, .vNum 1⟩ : Cond) :: ops)) ∧
    (buildIndexOps [⟨"b", .gt, .vNum 2⟩] ["b"] ["b"] = .ok [⟨"b", .gt, .vNum 2⟩]) ∧
    (buildIndexOps [⟨"a", .gt, .vNum 2⟩, ⟨"b", .eq, .vNum 3⟩] ["a", "b"] ["a", "b"] =
      .error "Index 'a_and_b' only supports range queries on the last column") ∧
    (buildIndexOps [] ["a", "b"] ["a", "b"] =
      .error "Index 'a_and_b' requires WHERE condition on column 'a' (prefix column)") ∧
    (buildIndexOps [⟨"a", .eq, .vNum 1⟩] ["a", "b"] ["b"] = .ok []) :=
  ⟨buildIndexFilter_column_policy.1 _ _ "a" _ _ (by decide) (by decide),
   buildIndexFilter_column_policy.2.1 _ _ "b" _ (by decide) (by decide),
   by
     have h := buildIndexFilter_column_policy.2.2.1
       [⟨"a", .gt, .vNum 2⟩, ⟨"b", .eq, .vNum 3⟩] ["a", "b"] "a" ["b"]
       ⟨"a", .gt, .vNum 2⟩ (by decide) (by decide) (by decide)
     rw [h]; simp only [Except.error.injEq]; decide,
   by
     have h := buildIndexFilter_column_policy.2.2.2.1 [] ["a", "b"] "a" ["b"]
       (by decide) (by decide)
     rw [h]; simp only [Except.error.injEq]; decide,
   buildIndexFilter_column_policy.2.2.2.2 _ _ "b" (by decide)⟩

/-! ## C8 — the aggregate function table -/

/-- Exactly one argument and it is a plain column: the argument shape
the SUM/AVG/MIN/MAX/ABS branches accept. -/
def isSingleColumnArg : List ColumnExpression → Bool
  | [.column _ _ _] => true
  | _ => false

/-- The COUNT argument shapes with dedicated behavior: a lone `*`, or a
first argument that is a column; anything else falls back to the total
row count. -/
def isCountShape : List ColumnExpression → Bool
  | [.star] => true
  | .column _ _ _ :: _ => true
  | _ => false

theorem sum_numOrZero_filter (key : String) :
    ∀ rows : List Row,
      (rows.map (fun r => numOrZero (rowGet r key))).sum =
        ((rows.filter (fun rr => !isNullish (rowGet rr key))).map
          (fun r => numOrZero (rowGet r key))).sum := by
  intro rows
  induction rows with
  | nil => rfl
  | cons r rest ih =>
    by_cases h : isNullish (rowGet r key) = true
    · simp [List.filter_cons, h, isNullish_numOrZero h, ih]
    · simp only [Bool.not_eq_true] at h
      simp [List.filter_cons, h, ih]

/-- C8 (amended): executeFunction implements the aggregate table.
COUNT(*) returns the total row count; COUNT(col) the count of non-null,
non-missing values of col; SUM(col) is 0 on the empty set and is
unchanged by dropping null/missing values (they contribute 0); AVG(col)
is null when there are no non-null values and otherwise their mean;
MIN(col)/MAX(col) are null when there are no non-null values; any
function name other than COUNT, SUM, AVG, MIN, MAX, ABS is a hard error
naming the function; SUM, AVG, MIN, MAX and ABS invoked on anything but
a single column argument are hard errors naming the function, and ABS
without a row context is that same error; COUNT with any other argument
shape is NOT an error — it falls back to the total row count. -/
theorem executeFunction_aggregate_table :
    (∀ (row : Option Row) (rows : List Row),
        executeFunction "COUNT" [.star] row rows = .ok (.vNum (rows.length : ℚ))) ∧
    (∀ (t : Option String) (n : String) (al : Option String) (row : Option Row) (rows : List Row),
        executeFunction "COUNT" [.column t n al] row rows =
          .ok (.vNum ((nonNullValsAt rows (colKeyOf t n)).length : ℚ))) ∧
    (∀ (t : Option String) (n : String) (al : Option String) (row : Option Row),
        executeFunction "SUM" [.column t n al] row [] = .ok (.vNum 0)) ∧
    (∀ (t : Option String) (n : String) (al : Option String) (row : Option Row) (rows : List Row),
        executeFunction "SUM" [.column t n al] row rows =
          executeFunction "SUM" [.column t n al] row
            (rows.filter (fun rr => !isNullish (rowGet rr (colKeyOf t n))))) ∧
    (∀ (t : Option String) (n : String) (al : Option String) (row : Option Row) (rows : List Row),
        nonNullValsAt rows (colKeyOf t n) = [] →
        executeFunction "AVG" [.column t n al] row rows = .ok .vNull) ∧
    (∀ (t : Option String) (n : String) (al : Option String) (row : Option Row) (rows : List Row),
        nonNullValsAt rows (colKeyOf t n) ≠ [] →
        executeFunction "AVG" [.column t n al] row rows =
          .ok (.vNum (((nonNullValsAt rows (colKeyOf t n)).map toNum).foldl (fun a b => a + b) 0 /
            (((nonNullValsAt rows (colKeyOf t n)).map toNum).length : ℚ)))) ∧
    (∀ (t : Option String) (n : String) (al : Option String) (row : Option Row) (rows : List Row),
        nonNullValsAt rows (colKeyOf t n) = [] →
        executeFunction "MIN" [.column t n al] row rows = .ok .vNull ∧
        executeFunction "MAX" [.column t n al] row rows = .ok .vNull) ∧
    (∀ (name : String) (args : List ColumnExpression) (row : Option Row) (rows : List Row),
        ¬ name ∈ ["COUNT", "SUM", "AVG", "MIN", "MAX", "ABS"] →
        executeFunction name args row rows = .error s!"Unknown function: {name}") ∧
    (∀ (args : List ColumnExpression) (row : Option Row) (rows : List Row),
        isSingleColumnArg args = false →
        executeFunction "SUM" args row rows = .error "SUM function requires a single column argument" ∧
        executeFunction "AVG" args row rows = .error "AVG function requires a single column argument" ∧
        executeFunction "MIN" args row rows = .error "MIN function requires a single column argument" ∧
        executeFunction "MAX" args row rows = .error "MAX function requires a single column argument" ∧
        executeFunction "ABS" args row rows = .error "ABS function requires a single column argument") ∧
    (∀ (args : List ColumnExpression) (rows : List Row),
        executeFunction "ABS" args none rows = .error "ABS function requires a single column argument") ∧
    (∀ (args : List ColumnExpression) (row : Option Row) (rows : List Row),
        isCountShape args = false →
        executeFunction "COUNT" args row rows = .ok (.vNum (rows.length : ℚ))) := by
  refine ⟨?_, ?_, ?_, ?_, ?_, ?_, ?_, ?_, ?_, ?_, ?_⟩
  · intro row rows; rfl
  · intro t n al row rows; rfl
  · intro t n al row; rfl
  · intro t n al row rows
    simp only [executeFunction, String.reduceEq, reduceIte]
    rw [foldl_add_eq_sum, foldl_add_eq_sum, sum_numOrZero_filter]
  · intro t n al row rows h
    simp [executeFunction, h]
  · intro t n al row rows h
    have hne : ((nonNullValsAt rows (colKeyOf t n)).map toNum).isEmpty = false := by
      simp [List.isEmpty_iff, h]
    simp [executeFunction, hne]
  · intro t n al row rows h
    constructor <;> simp [executeFunction, h]
  · intro name args row rows hmem
    simp only [List.mem_cons, List.not_mem_nil, or_false, not_or] at hmem
    obtain ⟨h1, h2, h3, h4, h5, h6⟩ := hmem
    simp [executeFunction, h1, h2, h3, h4, h5, h6]
  · intro args row rows h
    refine ⟨?_, ?_, ?_, ?_, ?_⟩ <;>
      (simp only [executeFunction, String.reduceEq, reduceIte]
       cases args with
       | nil => rfl
       | cons a rest =>
         cases a <;> cases rest <;> simp_all [isSingleColumnArg] <;> rfl)
  · intro args rows
    simp only [executeFunction, String.reduceEq, reduceIte]
    cases args with
    | nil => rfl
    | cons a rest => cases a <;> cases rest <;> rfl
  · intro args row rows h
    simp only [executeFunction, String.reduceEq, reduceIte]
    cases args with
    | nil => rfl
    | cons a rest =>
      cases a <;> cases rest <;> simp_all [isCountShape] <;> rfl

/-- C8 counterexample: COUNT invoked with an empty argument list (an
arity mismatch for an aggregate) is not a hard error — it returns the
total row count. -/
theorem executeFunction_count_arity_cex :
    executeFunction "COUNT" [] none [[], []] = .ok (.vNum 2) ∧
    ¬ ∃ e, executeFunction "COUNT" [] none [[], []] = .error e := by
  constructor
  · decide
  · intro ⟨e, he⟩
    rw [show executeFunction "COUNT" [] none [[], []] = .ok (.vNum 2) from by decide] at he
    exact Except.noConfusion he

/-- C8 witness: the aggregate table at concrete inputs, every
hypothesis discharged. -/
theorem executeFunction_aggregate_table_witness :
    executeFunction "COUNT" [.star] none [[], []] = .ok (.vNum 2) ∧
    executeFunction "AVG" [.column none "x" none] none [[("x", .vNull)], []] = .ok .vNull ∧
    (executeFunction "MIN" [.column none "x" none] none [[("x", .vNull)]] = .ok .vNull ∧
      executeFunction "MAX" [.column none "x" none] none [[("x", .vNull)]] = .ok .vNull) ∧
    executeFunction "MEDIAN" [] none [] = .error "Unknown function: MEDIAN" ∧
    executeFunction "SUM" [.star] none [] = .error "SUM function requires a single column argument" ∧
    executeFunction "ABS" [.column none "x" none] none [] = .error "ABS function requires a single column argument" ∧
    executeFunction "COUNT" [.function "COUNT" [.star] none] none [[]] = .ok (.vNum 1) := by
  refine ⟨?_, ?_, ?_, ?_, ?_, ?_, ?_⟩
  · have h := executeFunction_aggregate_table.1 none [[], []]
    rw [h]; decide
  · exact executeFunction_aggregate_table.2.2.2.2.1 none "x" none none _ (by decide)
  · exact executeFunction_aggregate_table.2.2.2.2.2.2.1 none "x" none none _ (by decide)
  · have h := executeFunction_aggregate_table.2.2.2.2.2.2.2.1 "MEDIAN" [] none []
      (by decide)
    rw [h]
    simp only [Except.error.injEq]
    decide
  · exact (executeFunction_aggregate_table.2.2.2.2.2.2.2.2.1 [.star] none []
      (by decide)).1
  · exact executeFunction_aggregate_table.2.2.2.2.2.2.2.2.2.1 [.column none "x" none] []
  · have h := executeFunction_aggregate_table.2.2.2.2.2.2.2.2.2.2
      [.function "COUNT" [.star] none] none [[]] (by decide)
    rw [h]; decide

/-! ## C10 — LIMIT 0 treated as an absent limit by the validator -/

def c10stmt : SelectStatement :=
  { columns := [.star], fromTable := "t", fromIndex := none, joins := none,
    whereClause := none, groupBy := none, having := none, orderBy := none,
    limit := some 0 }

def c10db : Database :=
  ⟨[("t", ⟨[[("x", .vNum 1)], [("x", .vNum 2)]], []⟩)]⟩

def c10limits : QueryLimits :=
  { maxRows := 5, maxLimit := 5, requireLimit := false, exemptTables := [] }

/-- C10: For every non-grouped, non-aggregate-only statement carrying an
explicit LIMIT 0, validateQueryLimits treats the limit as absent: when
requireLimit is set and the from table is not exempt it raises the
missing-LIMIT error even though a LIMIT clause is present, and otherwise
it overwrites statement.limit with limits.maxRows; executing the
rewritten statement then returns up to maxRows rows instead of zero rows
(concretely: two rows from a two-row table under maxRows = 5). -/
theorem validateQueryLimits_limit_zero :
    (∀ (stmt : SelectStatement) (limits : QueryLimits),
        stmt.limit = some 0 → stmt.groupBy = none →
        hasOnlyAggregateFunctions stmt = false →
        limits.requireLimit = true →
        limits.exemptTables.contains stmt.fromTable = false →
        validateQueryLimits stmt limits =
          .error (s!"Query must include a LIMIT clause for table '{stmt.fromTable}'. " ++
            s!"Maximum allowed LIMIT is {limits.maxLimit}. " ++
            "This prevents accidentally reading large tables.")) ∧
    (∀ (stmt : SelectStatement) (limits : QueryLimits),
        stmt.limit = some 0 → stmt.groupBy = none →
        hasOnlyAggregateFunctions stmt = false →
        (limits.requireLimit = false ∨ limits.exemptTables.contains stmt.fromTable = true) →
        validateQueryLimits stmt limits = .ok { stmt with limit := some limits.maxRows }) ∧
    (validateQueryLimits c10stmt c10limits = .ok { c10stmt with limit := some 5 } ∧
      executeSQLStatement c10db { c10stmt with limit := some 5 } c10limits =
        .ok [[("x", .vNum 1)], [("x", .vNum 2)]]) := by
  refine ⟨?_, ?_, by decide, by decide⟩
  · intro stmt limits hlim hgb hagg hreq hex
    have hex' : stmt.fromTable ∉ limits.exemptTables := by
      simpa using hex
    simp [validateQueryLimits, hlim, hgb, hagg, hreq, hex', limTruthy]
  · intro stmt limits hlim hgb hagg hdisj
    rcases hdisj with h | h
    · simp [validateQueryLimits, hlim, hgb, hagg, h, limTruthy]
    · have h' : stmt.fromTable ∈ limits.exemptTables := by
        simpa using h
      simp [validateQueryLimits, hlim, hgb, hagg, h', limTruthy]

/-- C10 witness: the missing-LIMIT error fires for LIMIT 0 under
requireLimit, and the silent rewrite fires otherwise. -/
theorem validateQueryLimits_limit_zero_witness :
    validateQueryLimits c10stmt { c10limits with requireLimit := true } =
      .error ("Query must include a LIMIT clause for table 't'. " ++
        "Maximum allowed LIMIT is 5. This prevents accidentally reading large tables.") ∧
    validateQueryLimits c10stmt c10limits = .ok { c10stmt with limit := some 5 } := by
  constructor
  · have h := validateQueryLimits_limit_zero.1 c10stmt { c10limits with requireLimit := true }
      (by decide) (by decide) (by decide) (by decide) (by decide)
    rw [h]
    simp only [Except.error.injEq]
    decide
  · exact validateQueryLimits_limit_zero.2.1 c10stmt c10limits
      (by decide) (by decide) (by decide) (Or.inl (by decide))

/-! ## C5 — the SELECT-only command gate -/

/-- C5: parse rejects every input that does not begin with the SELECT
keyword: each of the eleven write commands produces the
write-operations-not-supported error naming the command; any other
non-SELECT first keyword produces the generic unsupported-command
error; an empty token stream produces the empty-query error; a
non-keyword first token is also rejected; and the same classification
holds for the composed tokenize-then-parse pipeline (an empty source
string included). -/
theorem parse_select_only_gate :
    (∀ (cmd : String) (p : Nat) (rest : List Token),
        cmd ∈ unsupportedCommands →
        parse (⟨"KEYWORD", cmd, p⟩ :: rest) =
          .error (s!"Write operations are not supported. '{cmd}' is a write operation. " ++
            "Only SELECT queries are allowed for safety.")) ∧
    (∀ (v : String) (p : Nat) (rest : List Token),
        upperStr v ∉ unsupportedCommands → upperStr v ≠ "SELECT" →
        v ≠ "" → trimStr v ≠ "" →
        parse (⟨"KEYWORD", v, p⟩ :: rest) =
          .error s!"Unsupported SQL command: '{upperStr v}'. Only SELECT queries are supported.") ∧
    (parse [] = .error "Empty SQL query") ∧
    (∀ (tok : Token) (rest : List Token),
        tok.type ≠ "KEYWORD" → ∃ msg, parse (tok :: rest) = .error msg) ∧
    (∀ (sql : String) (cmd : String) (p : Nat) (rest : List Token),
        tokenize sql = .ok (⟨"KEYWORD", cmd, p⟩ :: rest) →
        cmd ∈ unsupportedCommands →
        parseSQL sql =
          .error (s!"Write operations are not supported. '{cmd}' is a write operation. " ++
            "Only SELECT queries are allowed for safety.")) ∧
    (∀ (sql : String) (v : String) (p : Nat) (rest : List Token),
        tokenize sql = .ok (⟨"KEYWORD", v, p⟩ :: rest) →
        upperStr v ∉ unsupportedCommands → upperStr v ≠ "SELECT" →
        v ≠ "" → trimStr v ≠ "" →
        parseSQL sql =
          .error s!"Unsupported SQL command: '{upperStr v}'. Only SELECT queries are supported.") ∧
    (parseSQL "" = .error "Empty SQL query") := by
  have hwrite : ∀ (cmd : String) (p : Nat) (rest : List Token),
      cmd ∈ unsupportedCommands →
      parse (⟨"KEYWORD", cmd, p⟩ :: rest) =
        .error (s!"Write operations are not supported. '{cmd}' is a write operation. " ++
          "Only SELECT queries are allowed for safety.") := by
    intro cmd p rest hmem
    simp only [unsupportedCommands, List.mem_cons, List.not_mem_nil, or_false] at hmem
    rcases hmem with rfl | rfl | rfl | rfl | rfl | rfl | rfl | rfl | rfl | rfl | rfl <;> rfl
  have hgeneric : ∀ (v : String) (p : Nat) (rest : List Token),
      upperStr v ∉ unsupportedCommands → upperStr v ≠ "SELECT" →
      v ≠ "" → trimStr v ≠ "" →
      parse (⟨"KEYWORD", v, p⟩ :: rest) =
        .error s!"Unsupported SQL command: '{upperStr v}'. Only SELECT queries are supported." := by
    intro v p rest hmem hsel hne htrim
    have hcontains : unsupportedCommands.contains (upperStr v) = false := by
      simpa using hmem
    simp [parse, hne, htrim, hcontains, hmem, hsel]
  refine ⟨hwrite, hgeneric, rfl, ?_, ?_, ?_, rfl⟩
  · intro tok rest htype
    by_cases hv : tok.value = ""
    · exact ⟨"Empty SQL query", by simp [parse, htype, hv]⟩
    · refine ⟨s!"Expected SQL command, got: {tok.value}", ?_⟩
      simp [parse, htype, hv]
  · intro sql cmd p rest htok hmem
    simp only [parseSQL, bind, Except.instMonad, Except.bind, htok]
    exact hwrite cmd p rest hmem
  · intro sql v p rest htok hmem hsel hne htrim
    simp only [parseSQL, bind, Except.instMonad, Except.bind, htok]
    exact hgeneric v p rest hmem hsel hne htrim

/-- C5 witness: the gate at concrete inputs — INSERT and DROP token
streams, the composed pipeline on an INSERT statement source, a FROM
first keyword, a non-keyword first token, and the empty stream. -/
theorem parse_select_only_gate_witness :
    parse [⟨"KEYWORD", "INSERT", 0⟩, ⟨"EOF", "", 6⟩] =
      .error ("Write operations are not supported. 'INSERT' is a write operation. " ++
        "Only SELECT queries are allowed for safety.") ∧
    parse [⟨"KEYWORD", "DROP", 0⟩, ⟨"IDENTIFIER", "users", 5⟩, ⟨"EOF", "", 10⟩] =
      .error ("Write operations are not supported. 'DROP' is a write operation. " ++
        "Only SELECT queries are allowed for safety.") ∧
    parseSQL "INSERT INTO users" =
      .error ("Write operations are not supported. 'INSERT' is a write operation. " ++
        "Only SELECT queries are allowed for safety.") ∧
    parse [⟨"KEYWORD", "FROM", 0⟩, ⟨"EOF", "", 4⟩] =
      .error "Unsupported SQL command: 'FROM'. Only SELECT queries are supported." ∧
    (∃ msg, parse [⟨"IDENTIFIER", "foo", 0⟩, ⟨"EOF", "", 3⟩] = .error msg) := by
  refine ⟨?_, ?_, ?_, ?_, ?_⟩
  · exact parse_select_only_gate.1 "INSERT" 0 _ (by decide)
  · exact parse_select_only_gate.1 "DROP" 0 _ (by decide)
  · exact parse_select_only_gate.2.2.2.2.1 "INSERT INTO users" "INSERT" 0
      [⟨"IDENTIFIER", "INTO", 7⟩, ⟨"IDENTIFIER", "users", 12⟩, ⟨"EOF", "", 17⟩]
      (by rfl) (by decide)
  · have h := parse_select_only_gate.2.1 "FROM" 0 [⟨"EOF", "", 4⟩]
      (by decide) (by decide) (by decide) (by decide)
    rw [h]
    simp only [Except.error.injEq]
    decide
  · exact parse_select_only_gate.2.2.2.1 ⟨"IDENTIFIER", "foo", 0⟩ [⟨"EOF", "", 3⟩]
      (by decide)

/-! ## C9 — the lexer's token classes and lexical errors -/

def tokenTypeClasses : List String :=
  ["STAR", "COMMA", "DOT", "AT", "LPAREN", "RPAREN", "OPERATOR",
   "STRING", "NUMBER", "IDENTIFIER", "KEYWORD"]

theorem mem_append_tok {P : Token → Prop} {acc : List Token} {tok : Token}
    (hacc : ∀ t ∈ acc, P t) (htok : P tok) : ∀ t ∈ acc ++ [tok], P t := by
  intro t ht
  rcases List.mem_append.mp ht with h1 | h1
  · exact hacc t h1
  · simp only [List.mem_singleton] at h1
    subst h1
    exact htok

theorem tokenizeLoop_invariant :
    ∀ (fuel : Nat) (cs : List Char) (pos : Nat) (acc ts : List Token),
      tokenizeLoop fuel cs pos acc = .ok ts →
      (∀ t ∈ acc, t.type ∈ tokenTypeClasses) →
      ∃ pre eofPos, ts = pre ++ [⟨"EOF", "", eofPos⟩] ∧
        ∀ t ∈ pre, t.type ∈ tokenTypeClasses := by
  intro fuel
  induction fuel with
  | zero =>
    intro cs pos acc ts h _
    exact absurd h (by simp [tokenizeLoop])
  | succ fuel ih =>
    intro cs pos acc ts h hacc
    match cs with
    | [] =>
      simp only [tokenizeLoop, Except.ok.injEq] at h
      exact ⟨acc, pos, h.symm, hacc⟩
    | c :: rest =>
      rw [tokenizeLoop] at h
      by_cases h1 : isWsChar c = true
      · rw [if_pos h1] at h
        exact ih _ _ _ _ h hacc
      rw [if_neg h1] at h
      by_cases h2 : c = '*'
      · rw [if_pos h2] at h
        exact ih _ _ _ _ h (mem_append_tok hacc (by simp [tokenTypeClasses]))
      rw [if_neg h2] at h
      by_cases h3 : c = ','
      · rw [if_pos h3] at h
        exact ih _ _ _ _ h (mem_append_tok hacc (by simp [tokenTypeClasses]))
      rw [if_neg h3] at h
      by_cases h4 : c = '.'
      · rw [if_pos h4] at h
        exact ih _ _ _ _ h (mem_append_tok hacc (by simp [tokenTypeClasses]))
      rw [if_neg h4] at h
      by_cases h5 : c = '@'
      · rw [if_pos h5] at h
        exact ih _ _ _ _ h (mem_append_tok hacc (by simp [tokenTypeClasses]))
      rw [if_neg h5] at h
      by_cases h6 : c = '('
      · rw [if_pos h6] at h
        exact ih _ _ _ _ h (mem_append_tok hacc (by simp [tokenTypeClasses]))
      rw [if_neg h6] at h
      by_cases h7 : c = ')'
      · rw [if_pos h7] at h
        exact ih _ _ _ _ h (mem_append_tok hacc (by simp [tokenTypeClasses]))
      rw [if_neg h7] at h
      by_cases h8 : c = '='
      · rw [if_pos h8] at h
        exact ih _ _ _ _ h (mem_append_tok hacc (by simp [tokenTypeClasses]))
      rw [if_neg h8] at h
      by_cases h9 : c = '!' ∧ rest.head? = some '='
      · rw [if_pos h9] at h
        exact ih _ _ _ _ h (mem_append_tok hacc (by simp [tokenTypeClasses]))
      rw [if_neg h9] at h
      by_cases h10 : c = '>'
      · rw [if_pos h10] at h
        by_cases h10b : rest.head? = some '='
        · rw [if_pos h10b] at h
          exact ih _ _ _ _ h (mem_append_tok hacc (by simp [tokenTypeClasses]))
        · rw [if_neg h10b] at h
          exact ih _ _ _ _ h (mem_append_tok hacc (by simp [tokenTypeClasses]))
      rw [if_neg h10] at h
      by_cases h11 : c = '<'
      · rw [if_pos h11] at h
        by_cases h11b : rest.head? = some '='
        · rw [if_pos h11b] at h
          exact ih _ _ _ _ h (mem_append_tok hacc (by simp [tokenTypeClasses]))
        · rw [if_neg h11b] at h
          exact ih _ _ _ _ h (mem_append_tok hacc (by simp [tokenTypeClasses]))
      rw [if_neg h11] at h
      by_cases h12 : c = '\'' ∨ c = '"'
      · rw [if_pos h12] at h
        simp only [] at h
        split at h
        · exact absurd h (by simp)
        · exact ih _ _ _ _ h (mem_append_tok hacc (by simp [tokenTypeClasses]))
      rw [if_neg h12] at h
      by_cases h13 : isDigitChar c = true
      · rw [if_pos h13] at h
        simp only [] at h
        split at h
        · exact ih _ _ _ _ h (mem_append_tok hacc (by simp [tokenTypeClasses]))
        · exact ih _ _ _ _ h (mem_append_tok hacc (by simp [tokenTypeClasses]))
      rw [if_neg h13] at h
      by_cases h14 : isAlphaChar c = true
      · rw [if_pos h14] at h
        refine ih _ _ _ _ h (mem_append_tok hacc ?_)
        split <;> simp [tokenTypeClasses]
      rw [if_neg h14] at h
      exact absurd h (by simp)

/-- C9: tokenize recognizes exactly the token classes `*`, `,`, `.`,
`@`, `(`, `)`, the six comparison operators, single- and double-quoted
strings without escape processing, integer/decimal numbers, and
identifiers/keywords (keywords matched case-insensitively with the
uppercased value, identifier case preserved); every successful token
sequence consists of those classes and ends with an EOF token; an
unknown character raises the lexical error carrying the character and
position, and an unterminated string raises the distinct lexical error
carrying its position. -/
theorem tokenize_token_classes :
    (∀ (s : String) (ts : List Token), tokenize s = .ok ts →
        ∃ pre eofPos, ts = pre ++ [⟨"EOF", "", eofPos⟩] ∧
          ∀ t ∈ pre, t.type ∈ tokenTypeClasses) ∧
    (tokenize "*,.@()" = .ok [⟨"STAR", "*", 0⟩, ⟨"COMMA", ",", 1⟩, ⟨"DOT", ".", 2⟩,
      ⟨"AT", "@", 3⟩, ⟨"LPAREN", "(", 4⟩, ⟨"RPAREN", ")", 5⟩, ⟨"EOF", "", 6⟩]) ∧
    (tokenize "= != > >= < <=" = .ok [⟨"OPERATOR", "=", 0⟩, ⟨"OPERATOR", "!=", 2⟩,
      ⟨"OPERATOR", ">", 5⟩, ⟨"OPERATOR", ">=", 7⟩, ⟨"OPERATOR", "<", 10⟩,
      ⟨"OPERATOR", "<=", 12⟩, ⟨"EOF", "", 14⟩]) ∧
    (tokenize "'ab' \"cd\"" = .ok [⟨"STRING", "ab", 0⟩, ⟨"STRING", "cd", 5⟩, ⟨"EOF", "", 9⟩]) ∧
    (tokenize "12 3.5" = .ok [⟨"NUMBER", "12", 0⟩, ⟨"NUMBER", "3.5", 3⟩, ⟨"EOF", "", 6⟩]) ∧
    (tokenize "select Foo_1" =
      .ok [⟨"KEYWORD", "SELECT", 0⟩, ⟨"IDENTIFIER", "Foo_1", 7⟩, ⟨"EOF", "", 12⟩]) ∧
    (tokenize "'abc" = .error "Unterminated string at position 0") ∧
    (tokenize "a;" = .error "Unexpected character ';' at position 1") := by
  refine ⟨?_, by decide, by decide, by decide, by decide, by decide, by decide, by decide⟩
  intro s ts h
  exact tokenizeLoop_invariant _ _ _ _ _ h (by intro t ht; exact absurd ht (by simp))

/-- C9 witness: the general EOF/class invariant applied to a concrete
tokenization. -/
theorem tokenize_token_classes_witness :
    ∃ pre eofPos,
      ([⟨"IDENTIFIER", "x", 0⟩, ⟨"EOF", "", 1⟩] : List Token) =
        pre ++ [⟨"EOF", "", eofPos⟩] ∧
      ∀ t ∈ pre, t.type ∈ tokenTypeClasses :=
  tokenize_token_classes.1 "x" [⟨"IDENTIFIER", "x", 0⟩, ⟨"EOF", "", 1⟩] (by decide)

/-! ## Limit-field update lemmas

Replacing only the limit of a statement leaves every other field, and
every derived notion that ignores the limit, unchanged. -/

@[simp] theorem withLimit_columns (stmt : SelectStatement) (l : Option Nat) :
    ({stmt with limit := l} : SelectStatement).columns = stmt.columns := rfl

@[simp] theorem withLimit_fromTable (stmt : SelectStatement) (l : Option Nat) :
    ({stmt with limit := l} : SelectStatement).fromTable = stmt.fromTable := rfl

@[simp] theorem withLimit_fromIndex (stmt : SelectStatement) (l : Option Nat) :
    ({stmt with limit := l} : SelectStatement).fromIndex = stmt.fromIndex := rfl

@[simp] theorem withLimit_joins (stmt : SelectStatement) (l : Option Nat) :
    ({stmt with limit := l} : SelectStatement).joins = stmt.joins := rfl

@[simp] theorem withLimit_whereClause (stmt : SelectStatement) (l : Option Nat) :
    ({stmt with limit := l} : SelectStatement).whereClause = stmt.whereClause := rfl

@[simp] theorem withLimit_groupBy (stmt : SelectStatement) (l : Option Nat) :
    ({stmt with limit := l} : SelectStatement).groupBy = stmt.groupBy := rfl

@[simp] theorem withLimit_having (stmt : SelectStatement) (l : Option Nat) :
    ({stmt with limit := l} : SelectStatement).having = stmt.having := rfl

@[simp] theorem withLimit_orderBy (stmt : SelectStatement) (l : Option Nat) :
    ({stmt with limit := l} : SelectStatement).orderBy = stmt.orderBy := rfl

@[simp] theorem withLimit_limit (stmt : SelectStatement) (l : Option Nat) :
    ({stmt with limit := l} : SelectStatement).limit = l := rfl

@[simp] theorem hasOnlyAggregateFunctions_withLimit (stmt : SelectStatement) (l : Option Nat) :
    hasOnlyAggregateFunctions {stmt with limit := l} = hasOnlyAggregateFunctions stmt := rfl

@[simp] theorem canUseNativeOrdering_withLimit (db : Database) (stmt : SelectStatement)
    (l : Option Nat) :
    canUseNativeOrdering db {stmt with limit := l} = canUseNativeOrdering db stmt := rfl

@[simp] theorem applyGroupBy_withLimit (results : List Row) (stmt : SelectStatement)
    (l : Option Nat) :
    applyGroupBy results {stmt with limit := l} = applyGroupBy results stmt := rfl

theorem limTruthy_pos {l : Option Nat} (h : limTruthy l = true) : 1 ≤ limVal l := by
  cases l with
  | none => simp [limTruthy] at h
  | some n =>
    cases n with
    | zero => simp [limTruthy] at h
    | succ m => simp [limVal]

theorem take_singleton_of_pos {α : Type} (a : α) {n : Nat} (h : 1 ≤ n) :
    ([a].take n) = [a] := by
  cases n with
  | zero => omega
  | succ m => simp

/-! ## C2 — aggregate-only queries are LIMIT-invariant -/

theorem hasOnlyAgg_groupByNonempty {stmt : SelectStatement}
    (h : hasOnlyAggregateFunctions stmt = true) : groupByNonempty stmt.groupBy = false := by
  unfold hasOnlyAggregateFunctions at h
  unfold groupByNonempty
  cases hg : stmt.groupBy with
  | none => rfl
  | some gb =>
    cases gb with
    | nil => rfl
    | cons g gs => rw [hg] at h; exact absurd h (by simp)

theorem hasOnlyAgg_columns {stmt : SelectStatement}
    (h : hasOnlyAggregateFunctions stmt = true) :
    (!stmt.columns.isEmpty && stmt.columns.all ColumnExpression.isFunction) = true := by
  unfold hasOnlyAggregateFunctions at h
  cases hg : stmt.groupBy with
  | none => rw [hg] at h; exact h
  | some gb =>
    cases gb with
    | nil => rw [hg] at h; exact h
    | cons g gs => rw [hg] at h; exact absurd h (by simp)

/-- An aggregate-only projection collapses to the map of the single
aggregate row. -/
theorem projectColumns_aggregateOnly (results : List Row) (columns : List ColumnExpression)
    (ft : String) (joins : Option (List JoinClause))
    (hcols : (!columns.isEmpty && columns.all ColumnExpression.isFunction) = true) :
    projectColumns results columns ft joins =
      (aggregateRow results columns []).map (fun row => [row]) := by
  have hnoplain : columns.any ColumnExpression.isPlainColumn = false := by
    rw [Bool.and_eq_true] at hcols
    rw [List.any_eq_false]
    intro c hc
    have hfn := List.all_eq_true.mp hcols.2 c hc
    cases c <;> simp_all [ColumnExpression.isFunction, ColumnExpression.isPlainColumn]
  unfold projectColumns
  rw [hcols]
  simp only [hnoplain, Bool.false_eq_true, and_false, if_false, if_true, reduceIte]
  cases hagg : aggregateRow results columns [] with
  | error e => simp [bind, Except.instMonad, Except.bind, Except.map]
  | ok row => simp [bind, Except.instMonad, Except.bind, Except.map]

/-- scanRows never takes the limit-truncating fast path for an
aggregate-only statement, so its result does not depend on the limit. -/
theorem scanRows_limit_irrelevant (db : Database) (td : TableData) (stmt : SelectStatement)
    (hAgg : hasOnlyAggregateFunctions stmt = true) (l₁ l₂ : Option Nat) :
    scanRows db td {stmt with limit := l₁} = scanRows db td {stmt with limit := l₂} := by
  unfold scanRows
  simp only [withLimit_fromIndex, withLimit_whereClause, withLimit_fromTable,
    withLimit_orderBy, withLimit_limit, canUseNativeOrdering_withLimit,
    hasOnlyAggregateFunctions_withLimit, hAgg, not_true, and_false, if_false]

theorem except_bind_congr {α β : Type} {x : Except String α} {f g : α → Except String β}
    (h : ∀ a, f a = g a) : (x >>= f) = (x >>= g) := by
  cases x with
  | error e => rfl
  | ok a => exact h a

/-- The common tail of both execution paths for an aggregate-only
statement: order, limit-slice and cap applied to the singleton aggregate
row are the same for every limit value. -/
theorem orderLimitCap_singleton (row : Row) (ob : Option (List OrderByClause))
    (maxRows : Nat) (l₁ l₂ : Option Nat) :
    (let ordered := if ob.isSome then applyOrderBy [row] (ob.getD []) else [row]
     let limited := if limTruthy l₁ then ordered.take (limVal l₁) else ordered
     if maxRows < limited.length then limited.take maxRows else limited) =
    (let ordered := if ob.isSome then applyOrderBy [row] (ob.getD []) else [row]
     let limited := if limTruthy l₂ then ordered.take (limVal l₂) else ordered
     if maxRows < limited.length then limited.take maxRows else limited) := by
  have hlen : (if ob.isSome then applyOrderBy [row] (ob.getD []) else [row]).length = 1 := by
    split
    · rw [applyOrderBy_length]; rfl
    · rfl
  have htake : ∀ l : Option Nat, limTruthy l = true →
      (if ob.isSome then applyOrderBy [row] (ob.getD []) else [row]).take (limVal l) =
        (if ob.isSome then applyOrderBy [row] (ob.getD []) else [row]) := by
    intro l hl
    apply List.take_of_length_le
    rw [hlen]
    exact limTruthy_pos hl
  cases hb₁ : limTruthy l₁ with
  | false =>
    cases hb₂ : limTruthy l₂ with
    | false => simp only [hb₁, hb₂, Bool.false_eq_true, if_false]
    | true => simp only [hb₁, hb₂, Bool.false_eq_true, if_false, if_true, htake _ hb₂]
  | true =>
    cases hb₂ : limTruthy l₂ with
    | false => simp only [hb₁, hb₂, Bool.false_eq_true, if_false, if_true, htake _ hb₁]
    | true => simp only [hb₁, hb₂, if_true, htake _ hb₁, htake _ hb₂]

/-- The JOIN execution path ignores the limit for aggregate-only
statements until the singleton aggregate row is produced. -/
theorem executeSelectWithJoin_limit_irrelevant (db : Database) (td : TableData)
    (stmt : SelectStatement) (limits : QueryLimits)
    (hAgg : hasOnlyAggregateFunctions stmt = true) (l₁ l₂ : Option Nat) :
    executeSelectWithJoin db td {stmt with limit := l₁} limits =
      executeSelectWithJoin db td {stmt with limit := l₂} limits := by
  have hcols := hasOnlyAgg_columns hAgg
  have hgb := hasOnlyAgg_groupByNonempty hAgg
  unfold executeSelectWithJoin
  simp only [withLimit_joins, withLimit_fromIndex, withLimit_whereClause,
    withLimit_fromTable, withLimit_groupBy, withLimit_orderBy, withLimit_columns,
    withLimit_limit, hgb, Bool.false_eq_true, if_false]
  split
  · rfl
  · split
    · apply except_bind_congr
      intro y
      apply except_bind_congr
      intro leftResults
      rw [projectColumns_aggregateOnly _ _ _ _ hcols]
      cases hagg : aggregateRow leftResults stmt.columns [] with
      | error e => rfl
      | ok row =>
        exact congrArg Except.ok
          (orderLimitCap_singleton row stmt.orderBy limits.maxRows l₁ l₂)
    · apply except_bind_congr
      intro y
      apply except_bind_congr
      intro leftResults
      rw [projectColumns_aggregateOnly _ _ _ _ hcols]
      cases hagg : aggregateRow leftResults stmt.columns [] with
      | error e => rfl
      | ok row =>
        exact congrArg Except.ok
          (orderLimitCap_singleton row stmt.orderBy limits.maxRows l₁ l₂)

/-- The final slice-and-cap applied to the singleton aggregate row is
the same for every limit value on the simple-SELECT path. -/
theorem aggCapTail_eq (row : Row) (maxRows : Nat) (l : Option Nat) :
    (if limTruthy l = true then
        (pure (if maxRows < (List.take (limVal l) [row]).length then
          List.take maxRows (List.take (limVal l) [row])
          else List.take (limVal l) [row]) : Except String (List Row))
      else pure (if maxRows < ([row] : List Row).length then List.take maxRows [row]
        else [row])) =
    pure (if maxRows < ([row] : List Row).length then List.take maxRows [row] else [row]) := by
  cases hb : limTruthy l with
  | false => simp
  | true =>
    have ht : List.take (limVal l) [row] = [row] :=
      take_singleton_of_pos row (limTruthy_pos hb)
    simp [ht]

/-- The non-JOIN execution path likewise ignores the limit for
aggregate-only statements. -/
theorem executeSQLStatement_limit_irrelevant_aux (db : Database)
    (stmt : SelectStatement) (limits : QueryLimits)
    (hAgg : hasOnlyAggregateFunctions stmt = true) (l₁ l₂ : Option Nat)
    (hj : joinsTruthyNonempty stmt.joins = false) :
    executeSQLStatement db {stmt with limit := l₁} limits =
      executeSQLStatement db {stmt with limit := l₂} limits := by
  have hcols := hasOnlyAgg_columns hAgg
  have hgb := hasOnlyAgg_groupByNonempty hAgg
  unfold executeSQLStatement
  simp only [withLimit_fromTable, withLimit_joins, hj, Bool.false_eq_true, if_false,
    withLimit_groupBy, withLimit_orderBy, withLimit_columns, withLimit_limit,
    canUseNativeOrdering_withLimit, hasOnlyAggregateFunctions_withLimit, hAgg, hgb,
    not_true, and_false, false_and, true_and]
  split
  · rfl
  · rw [scanRows_limit_irrelevant db _ stmt hAgg l₁ l₂]
    apply except_bind_congr
    intro results
    rw [projectColumns_aggregateOnly _ _ _ _ hcols]
    cases hagg : aggregateRow
        (if ¬canUseNativeOrdering db stmt = true ∧ orderByNonempty stmt.orderBy = true then
          applyOrderBy results (stmt.orderBy.getD [])
        else results) stmt.columns [] with
    | error e => rfl
    | ok row =>
      exact (aggCapTail_eq row limits.maxRows l₁).trans
        (aggCapTail_eq row limits.maxRows l₂).symm

def c2rows : List Row :=
  [[("status", .vStr "p")], [("status", .vStr "p")], [("status", .vStr "q")]]

def c2db : Database := ⟨[("users", ⟨c2rows, []⟩)]⟩

def c2where : WhereClause := .comparison none "status" .eq (.vStr "p")

def c2agg : SelectStatement :=
  { columns := [.function "COUNT" [.star] none, .function "SUM" [.column none "n" none] none],
    fromTable := "users", fromIndex := none, joins := none, whereClause := some c2where,
    groupBy := none, having := none, orderBy := none, limit := none }

def c2limits : QueryLimits :=
  { maxRows := 10, maxLimit := 10, requireLimit := false, exemptTables := [] }

/-- SELECT COUNT(*) FROM t [WHERE w] [LIMIT lim]. -/
def countStarStmt (t : String) (w : Option WhereClause) (lim : Option Nat) : SelectStatement :=
  { columns := [.function "COUNT" [.star] none], fromTable := t, fromIndex := none,
    joins := none, whereClause := w, groupBy := none, having := none, orderBy := none,
    limit := lim }

/-- The rows of a table surviving the WHERE predicate. -/
def whereFiltered (tbl : TableData) (w : Option WhereClause) (t : String) : List Row :=
  match w with
  | some wc => tbl.rows.filter (fun r => buildFilterExpression r wc t)
  | none => tbl.rows

/-- C2: For every aggregate-only statement (no GROUP BY, every selected
column a FUNCTION) over a fixed database, execution returns the
identical result for every value of the LIMIT clause — with or without
JOINs — so no aggregate ever reflects a LIMIT-truncated row set; and
SELECT COUNT(*) with any WHERE predicate and any LIMIT returns the
single row mapping "COUNT(*)" to the number of WHERE-matching rows. -/
theorem executeSQLStatement_aggregateOnly_limit_invariant :
    (∀ (db : Database) (stmt : SelectStatement) (limits : QueryLimits) (l₁ l₂ : Option Nat),
        hasOnlyAggregateFunctions stmt = true →
        executeSQLStatement db {stmt with limit := l₁} limits =
          executeSQLStatement db {stmt with limit := l₂} limits) ∧
    (∀ (db : Database) (t : String) (w : Option WhereClause) (lim : Option Nat)
        (limits : QueryLimits) (tbl : TableData),
        db.lookupTable t = some tbl → 1 ≤ limits.maxRows →
        executeSQLStatement db (countStarStmt t w lim) limits =
          .ok [[("COUNT(*)", .vNum ((whereFiltered tbl w t).length : ℚ))]]) := by
  have part1 : ∀ (db : Database) (stmt : SelectStatement) (limits : QueryLimits)
      (l₁ l₂ : Option Nat), hasOnlyAggregateFunctions stmt = true →
      executeSQLStatement db {stmt with limit := l₁} limits =
        executeSQLStatement db {stmt with limit := l₂} limits := by
    intro db stmt limits l₁ l₂ hAgg
    by_cases hj : joinsTruthyNonempty stmt.joins = true
    · unfold executeSQLStatement
      simp only [withLimit_fromTable, withLimit_joins, hj, if_true]
      split
      · rfl
      · exact executeSelectWithJoin_limit_irrelevant db _ stmt limits hAgg l₁ l₂
    · exact executeSQLStatement_limit_irrelevant_aux db stmt limits hAgg l₁ l₂
        (Bool.not_eq_true _ |>.mp hj)
  refine ⟨part1, ?_⟩
  intro db t w lim limits tbl htbl hmax
  have hAggC : hasOnlyAggregateFunctions (countStarStmt t w none) = true := rfl
  have hred : executeSQLStatement db (countStarStmt t w lim) limits =
      executeSQLStatement db (countStarStmt t w none) limits :=
    part1 db (countStarStmt t w none) limits lim none hAggC
  rw [hred]
  have hcap : ¬ (limits.maxRows < 1) := by omega
  cases w with
  | none =>
    simp [executeSQLStatement, countStarStmt, htbl, scanRows, joinsTruthyNonempty,
      groupByNonempty, orderByNonempty, canUseNativeOrdering, limTruthy,
      hasOnlyAggregateFunctions, projectColumns, aggregateRow, executeFunction,
      fmtArgs, fmtArg, setField, whereFiltered, hcap, bind, Except.instMonad,
      Except.bind, pure, Except.pure, ColumnExpression.isFunction,
      ColumnExpression.isPlainColumn]
  | some wc =>
    simp [executeSQLStatement, countStarStmt, htbl, scanRows, joinsTruthyNonempty,
      groupByNonempty, orderByNonempty, canUseNativeOrdering, limTruthy,
      hasOnlyAggregateFunctions, projectColumns, aggregateRow, executeFunction,
      fmtArgs, fmtArg, setField, whereFiltered, hcap, bind, Except.instMonad,
      Except.bind, pure, Except.pure, ColumnExpression.isFunction,
      ColumnExpression.isPlainColumn]

/-- C2 witness: a three-row table, a WHERE predicate matching two rows,
two different LIMIT values, and the COUNT formula at both. -/
theorem executeSQLStatement_aggregateOnly_limit_invariant_witness :
    executeSQLStatement c2db {c2agg with limit := some 1} c2limits =
      executeSQLStatement c2db {c2agg with limit := none} c2limits ∧
    executeSQLStatement c2db (countStarStmt "users" (some c2where) (some 7)) c2limits =
      .ok [[("COUNT(*)", .vNum 2)]] := by
  constructor
  · exact executeSQLStatement_aggregateOnly_limit_invariant.1 c2db c2agg c2limits
      (some 1) none (by decide)
  · have h := executeSQLStatement_aggregateOnly_limit_invariant.2 c2db "users"
      (some c2where) (some 7) c2limits ⟨c2rows, []⟩ (by decide) (by decide)
    rw [h]
    decide

/-! ## Grouping lemmas: buildGroups buckets are exactly the key-filtered
rows, in first-occurrence key order -/

def groupsLookup {κ : Type} [DecidableEq κ] (gs : List (κ × List Row)) (k : κ) :
    Option (List Row) :=
  (gs.find? (fun p => p.1 = k)).map (fun p => p.2)

theorem groupsLookup_cons {κ : Type} [DecidableEq κ] (k' : κ) (b : List Row)
    (rest : List (κ × List Row)) (k : κ) :
    groupsLookup ((k', b) :: rest) k = if k' = k then some b else groupsLookup rest k := by
  simp only [groupsLookup, List.find?_cons]
  by_cases h : k' = k
  · simp [h]
  · simp [h]

theorem upsert_lookup_same {κ : Type} [DecidableEq κ] (gs : List (κ × List Row)) (k : κ)
    (r : Row) :
    groupsLookup (upsertGroup gs k r) k = some ((groupsLookup gs k).getD [] ++ [r]) := by
  induction gs with
  | nil => simp [upsertGroup, groupsLookup_cons, groupsLookup]
  | cons p rest ih =>
    obtain ⟨k', b⟩ := p
    by_cases h : k' = k
    · subst h
      simp [upsertGroup, groupsLookup_cons]
    · rw [show upsertGroup ((k', b) :: rest) k r = (k', b) :: upsertGroup rest k r from by
        simp [upsertGroup, h]]
      rw [groupsLookup_cons, groupsLookup_cons, if_neg h, if_neg h]
      exact ih

theorem upsert_lookup_other {κ : Type} [DecidableEq κ] (gs : List (κ × List Row))
    (k k' : κ) (r : Row) (h : k' ≠ k) :
    groupsLookup (upsertGroup gs k r) k' = groupsLookup gs k' := by
  induction gs with
  | nil =>
    rw [show upsertGroup ([] : List (κ × List Row)) k r = [(k, [r])] from rfl]
    rw [groupsLookup_cons, if_neg (fun hc => h hc.symm)]
  | cons p rest ih =>
    obtain ⟨k0, b⟩ := p
    by_cases h0 : k0 = k
    · rw [show upsertGroup ((k0, b) :: rest) k r = (k0, b ++ [r]) :: rest from by
        simp [upsertGroup, h0]]
      rw [groupsLookup_cons, groupsLookup_cons]
      rw [if_neg (fun hc => h (hc.symm.trans h0)), if_neg (fun hc => h (hc.symm.trans h0))]
    · rw [show upsertGroup ((k0, b) :: rest) k r = (k0, b) :: upsertGroup rest k r from by
        simp [upsertGroup, h0]]
      rw [groupsLookup_cons, groupsLookup_cons]
      by_cases h1 : k0 = k'
      · rw [if_pos h1, if_pos h1]
      · rw [if_neg h1, if_neg h1]
        exact ih

theorem upsert_map_fst {κ : Type} [DecidableEq κ] (gs : List (κ × List Row)) (k : κ)
    (r : Row) :
    (upsertGroup gs k r).map Prod.fst =
      if k ∈ gs.map Prod.fst then gs.map Prod.fst else gs.map Prod.fst ++ [k] := by
  induction gs with
  | nil => simp [upsertGroup]
  | cons p rest ih =>
    obtain ⟨k', b⟩ := p
    by_cases h : k' = k
    · subst h
      simp [upsertGroup]
    · simp only [upsertGroup, if_neg h, List.map_cons, List.mem_cons]
      rw [ih]
      by_cases hm : k ∈ rest.map Prod.fst
      · rw [if_pos hm, if_pos (Or.inr hm)]
      · rw [if_neg hm, if_neg (fun hc => hc.elim (fun he => h he.symm) hm)]
        rfl

theorem buildGroups_concat (gb : List GroupByClause) (results : List Row) (r : Row) :
    buildGroups gb (results ++ [r]) =
      upsertGroup (buildGroups gb results) (groupKeyOf gb r) r := by
  simp [buildGroups, List.foldl_append]

theorem buildGroups_lookup (gb : List GroupByClause) (results : List Row) (k : String) :
    groupsLookup (buildGroups gb results) k =
      (if (results.filter (fun r => groupKeyOf gb r = k)).isEmpty then none
       else some (results.filter (fun r => groupKeyOf gb r = k))) := by
  induction results using List.reverseRecOn with
  | nil => simp [buildGroups, groupsLookup]
  | append_singleton rs r ih =>
    rw [buildGroups_concat]
    by_cases hk : groupKeyOf gb r = k
    · rw [hk, upsert_lookup_same, ih]
      by_cases he : (rs.filter (fun row => groupKeyOf gb row = k)).isEmpty
      · rw [if_pos he]
        have : rs.filter (fun row => groupKeyOf gb row = k) = [] := List.isEmpty_iff.mp he
        simp [List.filter_append, hk, this]
      · rw [if_neg he]
        simp only [Option.getD_some]
        rw [if_neg (by simp [List.filter_append, hk])]
        simp [List.filter_append, hk]
    · rw [upsert_lookup_other _ _ _ _ (fun hc => hk hc.symm), ih]
      simp [List.filter_append, hk]

theorem buildGroups_keys_nodup (gb : List GroupByClause) (results : List Row) :
    ((buildGroups gb results).map Prod.fst).Nodup := by
  induction results using List.reverseRecOn with
  | nil => simp [buildGroups]
  | append_singleton rs r ih =>
    rw [buildGroups_concat, upsert_map_fst]
    by_cases hm : groupKeyOf gb r ∈ (buildGroups gb rs).map Prod.fst
    · rw [if_pos hm]; exact ih
    · rw [if_neg hm]
      simp [List.nodup_append, ih, hm]

theorem groupsLookup_eq_none_iff {κ : Type} [DecidableEq κ] (gs : List (κ × List Row))
    (k : κ) : groupsLookup gs k = none ↔ k ∉ gs.map Prod.fst := by
  simp only [groupsLookup, Option.map_eq_none', List.find?_eq_none, List.mem_map,
    decide_eq_true_eq]
  constructor
  · intro h hc
    obtain ⟨p, hp, hk⟩ := hc
    exact h p hp hk
  · intro h p hp hk
    exact h ⟨p, hp, hk⟩

theorem buildGroups_keys_mem (gb : List GroupByClause) (results : List Row) (k : String) :
    k ∈ (buildGroups gb results).map Prod.fst ↔ k ∈ results.map (groupKeyOf gb) := by
  constructor
  · intro h
    by_contra hnot
    have hfil : results.filter (fun r => groupKeyOf gb r = k) = [] := by
      rw [List.filter_eq_nil_iff]
      intro r hr
      simp only [decide_eq_true_eq]
      intro hc
      exact hnot (List.mem_map.mpr ⟨r, hr, hc⟩)
    have := buildGroups_lookup gb results k
    rw [hfil] at this
    simp only [List.isEmpty_nil, if_pos] at this
    exact absurd h ((groupsLookup_eq_none_iff _ _).mp this)
  · intro h
    obtain ⟨r, hr, hk⟩ := List.mem_map.mp h
    by_contra hnot
    have hnone := (groupsLookup_eq_none_iff (buildGroups gb results) k).mpr hnot
    rw [buildGroups_lookup] at hnone
    split at hnone
    · next he =>
      have : r ∈ results.filter (fun row => groupKeyOf gb row = k) :=
        List.mem_filter.mpr ⟨hr, by simp [hk]⟩
      rw [List.isEmpty_iff.mp he] at this
      exact absurd this (List.not_mem_nil r)
    · exact Option.noConfusion hnone

theorem find?_eq_of_mem_nodup {κ : Type} [DecidableEq κ] :
    ∀ (gs : List (κ × List Row)), ((gs.map Prod.fst).Nodup) →
      ∀ p ∈ gs, gs.find? (fun q => q.1 = p.1) = some p := by
  intro gs
  induction gs with
  | nil => intro _ p hp; exact absurd hp (List.not_mem_nil p)
  | cons q rest ih =>
    intro hnd p hp
    simp only [List.map_cons, List.nodup_cons] at hnd
    rcases List.mem_cons.mp hp with rfl | hp'
    · simp [List.find?]
    · have hne : q.1 ≠ p.1 := by
        intro hc
        exact hnd.1 (List.mem_map.mpr ⟨p, hp', hc.symm⟩)
      simp only [List.find?]
      rw [decide_eq_false hne]
      exact ih hnd.2 p hp'

theorem buildGroups_bucket (gb : List GroupByClause) (results : List Row) :
    ∀ p ∈ buildGroups gb results,
      p.2 = results.filter (fun r => groupKeyOf gb r = p.1) := by
  intro p hp
  have hfind := find?_eq_of_mem_nodup (buildGroups gb results)
    (buildGroups_keys_nodup gb results) p hp
  have hlook : groupsLookup (buildGroups gb results) p.1 = some p.2 := by
    simp [groupsLookup, hfind]
  rw [buildGroups_lookup] at hlook
  split at hlook
  · exact Option.noConfusion hlook
  · exact (Option.some.injEq _ _ ▸ hlook).symm

/-- The preimage of a predicate under a fallible map: holds when the
image exists and satisfies the predicate. -/
def mapEFilterPred {α β : Type} (f : α → Except String β) (p : β → Bool) (a : α) : Bool :=
  match f a with | .ok b => p b | .error _ => false

/-- Filtering the image of a successful mapE counts the inputs whose
image satisfies the predicate. -/
theorem mapE_filter_length {α β : Type} (f : α → Except String β) (p : β → Bool) :
    ∀ (l : List α) (l' : List β), mapE f l = .ok l' →
      (l'.filter p).length = (l.filter (mapEFilterPred f p)).length := by
  intro l
  induction l with
  | nil =>
    intro l' h
    simp only [mapE, Except.ok.injEq] at h
    subst h
    rfl
  | cons a as ih =>
    intro l' h
    simp only [mapE, bind, Except.instMonad, Except.bind] at h
    cases hf : f a with
    | error e => rw [hf] at h; exact absurd h (by simp)
    | ok b =>
      rw [hf] at h
      cases hrec : mapE f as with
      | error e => rw [hrec] at h; exact absurd h (by simp)
      | ok bs =>
        rw [hrec] at h
        simp only [Except.ok.injEq] at h
        subst h
        simp only [List.filter_cons, mapEFilterPred, hf]
        by_cases hp : p b
        · simp [hp, ih bs hrec]
        · simp [hp, ih bs hrec]

/-- The HAVING filter as a predicate (absent HAVING keeps every row). -/
def havingPred (stmt : SelectStatement) (row : Row) : Bool :=
  match stmt.having with
  | some h => evaluateHaving row h
  | none => true

/-- A group key contributes a result row iff its full bucket's group row
builds without error and passes HAVING. -/
def groupSurvives (stmt : SelectStatement) (results : List Row) (gb : List GroupByClause)
    (k : String) : Bool :=
  match buildGroupRow gb stmt.columns (results.filter (fun r => groupKeyOf gb r = k)) with
  | .ok row => havingPred stmt row
  | .error _ => false

/-- A successful applyGroupBy returns one row per distinct group key
whose bucket survives HAVING. -/
theorem applyGroupBy_length (stmt : SelectStatement) (results : List Row)
    (g : GroupByClause) (gs : List GroupByClause)
    (hgb : stmt.groupBy = some (g :: gs)) (out : List Row)
    (h : applyGroupBy results stmt = .ok out) :
    out.length =
      ((results.map (groupKeyOf (g :: gs))).dedup.filter
        (fun k => groupSurvives stmt results (g :: gs) k)).length := by
  simp only [applyGroupBy, hgb, bind, Except.instMonad, Except.bind] at h
  cases hme : mapE (fun pr => buildGroupRow (g :: gs) stmt.columns pr.2)
      (buildGroups (g :: gs) results) with
  | error e => rw [hme] at h; exact absurd h (by simp)
  | ok grouped =>
    rw [hme] at h
    simp only [Except.ok.injEq] at h
    subst h
    rw [List.length_map]
    have hfil : (match stmt.having with
        | some hv => grouped.filter (fun r => evaluateHaving r hv)
        | none => grouped).length = (grouped.filter (havingPred stmt)).length := by
      cases hh : stmt.having with
      | none =>
        have hpt : havingPred stmt = fun _ => true := by
          funext r; simp [havingPred, hh]
        rw [hpt]
        simp
      | some hv =>
        have hpt : havingPred stmt = fun r => evaluateHaving r hv := by
          funext r; simp [havingPred, hh]
        rw [hpt]
    rw [hfil]
    calc (grouped.filter (havingPred stmt)).length
        = ((buildGroups (g :: gs) results).filter
            (mapEFilterPred (fun pr => buildGroupRow (g :: gs) stmt.columns pr.2)
              (havingPred stmt))).length :=
          mapE_filter_length (fun pr => buildGroupRow (g :: gs) stmt.columns pr.2)
            (havingPred stmt) (buildGroups (g :: gs) results) grouped hme
      _ = (buildGroups (g :: gs) results).countP
            (mapEFilterPred (fun pr => buildGroupRow (g :: gs) stmt.columns pr.2)
              (havingPred stmt)) :=
          (List.countP_eq_length_filter _ _).symm
      _ = (buildGroups (g :: gs) results).countP
            (fun pr => groupSurvives stmt results (g :: gs) pr.1) :=
          List.countP_congr (fun pr hpr => by
            simp only [mapEFilterPred]
            rw [groupSurvives, ← buildGroups_bucket (g :: gs) results pr hpr]
            cases buildGroupRow (g :: gs) stmt.columns pr.2 <;> rfl)
      _ = ((buildGroups (g :: gs) results).map Prod.fst).countP
            (fun k => groupSurvives stmt results (g :: gs) k) := by
          rw [List.countP_map]
          rfl
      _ = ((results.map (groupKeyOf (g :: gs))).dedup).countP
            (fun k => groupSurvives stmt results (g :: gs) k) :=
          List.Perm.countP_eq _
            ((List.perm_ext_iff_of_nodup (buildGroups_keys_nodup _ _)
              (List.nodup_dedup _)).mpr
              (fun k => by
                rw [List.mem_dedup]
                exact buildGroups_keys_mem (g :: gs) results k))
      _ = ((results.map (groupKeyOf (g :: gs))).dedup.filter
            (fun k => groupSurvives stmt results (g :: gs) k)).length :=
          List.countP_eq_length_filter _ _

/-- Without the native-ordering fast path, the retrieval stage never
reads the limit. -/
theorem scanRows_noNative (db : Database) (td : TableData) (stmt : SelectStatement)
    (hnat : canUseNativeOrdering db stmt = false) (l : Option Nat) :
    scanRows db td {stmt with limit := l} = scanRows db td stmt := by
  unfold scanRows
  simp only [withLimit_fromIndex, withLimit_whereClause, withLimit_fromTable,
    withLimit_orderBy, withLimit_limit, canUseNativeOrdering_withLimit, hnat,
    Bool.false_eq_true, if_false]

/-- The non-JOIN GROUP BY execution, characterized for every limit:
scan (limit-independent), group, order, then slice by the limit. -/
theorem executeSQLStatement_groupBy_char (db : Database) (stmt : SelectStatement)
    (limits : QueryLimits) (td : TableData) (results : List Row)
    (hj : joinsTruthyNonempty stmt.joins = false)
    (hgbn : groupByNonempty stmt.groupBy = true)
    (htd : db.lookupTable stmt.fromTable = some td)
    (hnat : canUseNativeOrdering db stmt = false)
    (hscan : scanRows db td stmt = .ok results) :
    ∀ l : Option Nat,
      executeSQLStatement db {stmt with limit := l} limits =
        Except.bind (applyGroupBy results stmt) (fun grouped =>
          Except.ok (if limTruthy l = true then
            (if stmt.orderBy.isSome = true then
              applyOrderBy grouped (stmt.orderBy.getD []) else grouped).take (limVal l)
          else
            (if stmt.orderBy.isSome = true then
              applyOrderBy grouped (stmt.orderBy.getD []) else grouped))) := by
  intro l
  unfold executeSQLStatement
  simp only [withLimit_fromTable, withLimit_joins, withLimit_groupBy, withLimit_orderBy,
    withLimit_limit, htd, hj, Bool.false_eq_true, if_false, hgbn, if_true,
    eq_self_iff_true, reduceIte, bind, Except.instMonad,
    scanRows_noNative db td stmt hnat l, hscan, applyGroupBy_withLimit,
    Except.bind, pure, Except.pure]

/-- C3 (amended): for a GROUP BY query without JOINs whose LIMIT is a
positive k and which does not take the native-ordering fast path,
execution returns exactly min k (number of distinct group keys whose
bucket survives HAVING) rows; the scan is identical for every limit
value, and the k-limited result is the k-prefix of the unlimited result,
so the LIMIT is applied only after grouping, HAVING and ORDER BY and
every aggregate is computed over its group's full member row set. -/
theorem executeSQLStatement_groupBy_limit (db : Database) (stmt : SelectStatement)
    (limits : QueryLimits) (g : GroupByClause) (gs : List GroupByClause) (k : Nat)
    (td : TableData) (results out : List Row)
    (hgb : stmt.groupBy = some (g :: gs))
    (hj : joinsTruthyNonempty stmt.joins = false)
    (hlim : stmt.limit = some k) (hk : 1 ≤ k)
    (hnat : canUseNativeOrdering db stmt = false)
    (htd : db.lookupTable stmt.fromTable = some td)
    (hscan : scanRows db td stmt = .ok results)
    (hout : executeSQLStatement db stmt limits = .ok out) :
    out.length =
      min k ((results.map (groupKeyOf (g :: gs))).dedup.filter
        (fun key => groupSurvives stmt results (g :: gs) key)).length ∧
    (∀ l : Option Nat, scanRows db td {stmt with limit := l} = scanRows db td stmt) ∧
    executeSQLStatement db stmt limits =
      Except.map (fun rs => rs.take k)
        (executeSQLStatement db {stmt with limit := none} limits) := by
  have hgbn : groupByNonempty stmt.groupBy = true := by rw [hgb]; rfl
  have hchar := executeSQLStatement_groupBy_char db stmt limits td results hj hgbn htd hnat hscan
  have hstmt : ({stmt with limit := some k} : SelectStatement) = stmt := by
    rw [← hlim]
  have hlt : limTruthy (some k) = true := by
    cases k with
    | zero => omega
    | succ m => simp [limTruthy]
  have hcharK : executeSQLStatement db stmt limits =
      Except.bind (applyGroupBy results stmt) (fun grouped =>
        Except.ok ((if stmt.orderBy.isSome = true then
          applyOrderBy grouped (stmt.orderBy.getD []) else grouped).take k)) := by
    have h := hchar (some k)
    rw [hstmt] at h
    simp only [hlt, if_true, limVal, Option.getD_some] at h
    exact h
  refine ⟨?_, fun l => scanRows_noNative db td stmt hnat l, ?_⟩
  · rw [hcharK] at hout
    cases hag : applyGroupBy results stmt with
    | error e => rw [hag] at hout; exact absurd hout (by simp [Except.bind])
    | ok grouped =>
      rw [hag] at hout
      simp only [Except.bind, Except.ok.injEq] at hout
      subst hout
      rw [List.length_take]
      have hordlen : (if stmt.orderBy.isSome = true then
          applyOrderBy grouped (stmt.orderBy.getD []) else grouped).length =
          grouped.length := by
        split
        · exact applyOrderBy_length _ _
        · rfl
      rw [hordlen, applyGroupBy_length stmt results g gs hgb grouped hag]
  · rw [hcharK, hchar none]
    cases hag : applyGroupBy results stmt with
    | error e => simp [Except.bind, Except.map]
    | ok grouped => simp [Except.bind, Except.map, limTruthy]

def c3rows : List Row := [[("s", .vStr "a")], [("s", .vStr "a")]]

def c3db : Database := ⟨[("t", ⟨c3rows, []⟩)]⟩

/-- SELECT s, COUNT(*) AS c FROM t GROUP BY s ORDER BY _creationTime
LIMIT 1 — ORDER BY _creationTime enables the native-ordering fast
path. -/
def c3stmt : SelectStatement :=
  { columns := [.column none "s" none, .function "COUNT" [.star] (some "c")],
    fromTable := "t", fromIndex := none, joins := none, whereClause := none,
    groupBy := some [{ table := none, field := "s" }], having := none,
    orderBy := some [{ table := none, field := "_creationTime", direction := .asc }],
    limit := some 1 }

def c3limits : QueryLimits :=
  { maxRows := 10, maxLimit := 10, requireLimit := false, exemptTables := [] }

/-- C3 counterexample: under the native-ordering fast path (ORDER BY
_creationTime) the LIMIT truncates the scan itself before grouping.
Both table rows fall in the single group "a", yet its COUNT comes out 1,
not the full member count 2 — the aggregate does not cover the group's
full member row set, contradicting the claim as stated. -/
theorem executeSQLStatement_groupBy_limit_cex :
    (c3rows.filter (fun r => groupKeyOf [{ table := none, field := "s" }] r =
        groupKeyOf [{ table := none, field := "s" }] [("s", .vStr "a")])).length = 2 ∧
    executeSQLStatement c3db c3stmt c3limits = .ok [[("s", .vStr "a"), ("c", .vNum 1)]] ∧
    rowGet [("s", .vStr "a"), ("c", .vNum 1)] "c" ≠ some (.vNum 2) := by
  refine ⟨by decide, by decide, by decide⟩

def c3wrows : List Row := [[("s", .vStr "a")], [("s", .vStr "b")]]

def c3wdb : Database := ⟨[("t", ⟨c3wrows, []⟩)]⟩

/-- SELECT s, COUNT(*) AS c FROM t GROUP BY s LIMIT 1 (no ORDER BY, so
no native-ordering fast path). -/
def c3wstmt : SelectStatement :=
  { columns := [.column none "s" none, .function "COUNT" [.star] (some "c")],
    fromTable := "t", fromIndex := none, joins := none, whereClause := none,
    groupBy := some [{ table := none, field := "s" }], having := none,
    orderBy := none, limit := some 1 }

/-- C3 witness: the amended theorem applied to a two-group table with
LIMIT 1 — the result has min 1 2 = 1 row. -/
theorem executeSQLStatement_groupBy_limit_witness :
    executeSQLStatement c3wdb c3wstmt c3limits = .ok [[("s", .vStr "a"), ("c", .vNum 1)]] ∧
    ([[("s", .vStr "a"), ("c", .vNum 1)]] : List Row).length =
      min 1 ((c3wrows.map (groupKeyOf [{ table := none, field := "s" }])).dedup.filter
        (fun key => groupSurvives c3wstmt c3wrows [{ table := none, field := "s" }]
          key)).length :=
  ⟨by decide,
   (executeSQLStatement_groupBy_limit c3wdb c3wstmt c3limits
      { table := none, field := "s" } [] 1 ⟨c3wrows, []⟩ c3wrows
      [[("s", .vStr "a"), ("c", .vNum 1)]]
      rfl rfl rfl (by decide) (by decide) (by decide) (by decide) (by decide)).1⟩

/-- Without an index hint and without the native-ordering fast path, the
scan returns exactly the WHERE-filtered table rows. -/
theorem scanRows_noIndex_noNative (db : Database) (td : TableData) (stmt : SelectStatement)
    (hidx : stmt.fromIndex = none) (hnat : canUseNativeOrdering db stmt = false) :
    scanRows db td stmt = .ok (whereFiltered td stmt.whereClause stmt.fromTable) := by
  unfold scanRows
  rw [hidx]
  cases ho : stmt.orderBy with
  | none =>
    cases hw : stmt.whereClause <;>
      simp [whereFiltered, bind, Except.instMonad, Except.bind, pure, Except.pure]
  | some l =>
    cases l with
    | nil =>
      cases hw : stmt.whereClause <;>
        simp [whereFiltered, bind, Except.instMonad, Except.bind, pure, Except.pure]
    | cons o rest =>
      cases hw : stmt.whereClause <;>
        simp [whereFiltered, hnat, bind, Except.instMonad, Except.bind, pure, Except.pure]

/-- With the native-ordering fast path (no index hint), a truthy limit
on a non-aggregate statement truncates the scan itself. -/
theorem scanRows_noIndex_native (db : Database) (td : TableData) (stmt : SelectStatement)
    (o : OrderByClause) (rest : List OrderByClause)
    (hidx : stmt.fromIndex = none) (ho : stmt.orderBy = some (o :: rest))
    (hnat : canUseNativeOrdering db stmt = true)
    (hlt : limTruthy stmt.limit = true) (hagg : hasOnlyAggregateFunctions stmt = false) :
    ∃ srows, scanRows db td stmt = .ok srows ∧
      srows.length = min (limVal stmt.limit)
        (whereFiltered td stmt.whereClause stmt.fromTable).length := by
  refine ⟨(match o.direction with
      | .asc => whereFiltered td stmt.whereClause stmt.fromTable
      | .desc => (whereFiltered td stmt.whereClause stmt.fromTable).reverse).take
        (limVal stmt.limit), ?_, ?_⟩
  · unfold scanRows
    rw [hidx, ho]
    cases hd : o.direction <;> cases hw : stmt.whereClause <;>
      simp [hd, whereFiltered, hnat, hlt, hagg, bind, Except.instMonad, Except.bind,
        pure, Except.pure]
  · cases hd : o.direction <;> simp [hd, List.length_take]

/-- Length of the final maxRows cap. -/
theorem length_capped (l : List Row) (m : Nat) :
    (if m < l.length then l.take m else l).length = min m l.length := by
  split
  · simp [List.length_take]
  · next h => omega

/-- The in-memory order / limit stage of the plain (non-GROUP BY,
non-JOIN) path, named as it appears inside executeSQLStatement. -/
def inMemoryStage (db : Database) (stmt : SelectStatement) (srows : List Row) : List Row :=
  if ¬ canUseNativeOrdering db stmt = true ∧ limTruthy stmt.limit = true ∧
      ¬ hasOnlyAggregateFunctions stmt = true then
    (if ¬ canUseNativeOrdering db stmt = true ∧ orderByNonempty stmt.orderBy = true then
      applyOrderBy srows (stmt.orderBy.getD []) else srows).take (limVal stmt.limit)
  else
    (if ¬ canUseNativeOrdering db stmt = true ∧ orderByNonempty stmt.orderBy = true then
      applyOrderBy srows (stmt.orderBy.getD []) else srows)

/-- The plain non-aggregate path, characterized: scan, in-memory stage,
project, cap at maxRows. -/
theorem executeSQLStatement_plain_char (db : Database) (stmt : SelectStatement)
    (limits : QueryLimits) (td : TableData) (srows : List Row)
    (hj : joinsTruthyNonempty stmt.joins = false)
    (hgbn : groupByNonempty stmt.groupBy = false)
    (hagg : hasOnlyAggregateFunctions stmt = false)
    (htd : db.lookupTable stmt.fromTable = some td)
    (hscan : scanRows db td stmt = .ok srows) :
    executeSQLStatement db stmt limits =
      Except.bind (projectColumns (inMemoryStage db stmt srows) stmt.columns
          stmt.fromTable none)
        (fun projected =>
          Except.ok (if limits.maxRows < projected.length then
            projected.take limits.maxRows else projected)) := by
  unfold executeSQLStatement
  rw [htd]
  simp only [hj, Bool.false_eq_true, if_false, hgbn, bind, Except.instMonad, Except.bind,
    hscan, hagg, false_and, pure, Except.pure, inMemoryStage]

/-- C4 (amended): for a non-aggregate, non-grouped, non-JOIN query
without an index hint whose LIMIT is a positive k, the number of rows
returned is min k (min (rows surviving WHERE) limits.maxRows); and a
successful validation of a non-grouped, non-aggregate statement always
leaves a positive LIMIT in place when maxRows is positive (the claim's
"value after validation has assigned any default"). -/
theorem executeSQLStatement_plain_rowcount :
    (∀ (db : Database) (stmt : SelectStatement) (limits : QueryLimits) (k : Nat)
        (td : TableData) (out : List Row),
        joinsTruthyNonempty stmt.joins = false →
        stmt.fromIndex = none →
        stmt.groupBy = none →
        hasOnlyAggregateFunctions stmt = false →
        db.lookupTable stmt.fromTable = some td →
        stmt.limit = some k → 1 ≤ k →
        executeSQLStatement db stmt limits = .ok out →
        out.length =
          min k (min (whereFiltered td stmt.whereClause stmt.fromTable).length
            limits.maxRows)) ∧
    (∀ (s : SelectStatement) (limits : QueryLimits) (s' : SelectStatement),
        s.groupBy = none → hasOnlyAggregateFunctions s = false →
        1 ≤ limits.maxRows →
        validateQueryLimits s limits = .ok s' →
        ∃ k, s'.limit = some k ∧ 1 ≤ k ∧
          (limTruthy s.limit = true → s' = s)) := by
  constructor
  · intro db stmt limits k td out hj hidx hgb hagg htd hlim hk hout
    have hlt : limTruthy stmt.limit = true := by
      rw [hlim]
      cases k with
      | zero => omega
      | succ m => simp [limTruthy]
    have hgbn : groupByNonempty stmt.groupBy = false := by rw [hgb]; rfl
    have hno : (!stmt.columns.isEmpty && stmt.columns.all ColumnExpression.isFunction)
        = false := by
      have h := hagg
      unfold hasOnlyAggregateFunctions at h
      rw [hgb] at h
      exact h
    have hkval : limVal stmt.limit = k := by rw [hlim]; rfl
    obtain ⟨srows, hscan, hslen⟩ :
        ∃ srows, scanRows db td stmt = .ok srows ∧
          ((canUseNativeOrdering db stmt = true ∧ srows.length =
              min k (whereFiltered td stmt.whereClause stmt.fromTable).length) ∨
           (canUseNativeOrdering db stmt = false ∧
              srows = whereFiltered td stmt.whereClause stmt.fromTable)) := by
      cases hnat : canUseNativeOrdering db stmt with
      | false =>
        exact ⟨_, scanRows_noIndex_noNative db td stmt hidx hnat, Or.inr ⟨rfl, rfl⟩⟩
      | true =>
        have hoex : ∃ o rest, stmt.orderBy = some (o :: rest) := by
          unfold canUseNativeOrdering at hnat
          cases ho : stmt.orderBy with
          | none => rw [ho] at hnat; exact absurd hnat (by simp)
          | some l =>
            cases l with
            | nil => rw [ho] at hnat; exact absurd hnat (by simp)
            | cons o rest => exact ⟨o, rest, rfl⟩
        obtain ⟨o, rest, ho⟩ := hoex
        obtain ⟨srows, h1, h2⟩ := scanRows_noIndex_native db td stmt o rest hidx ho hnat
          hlt hagg
        rw [hkval] at h2
        exact ⟨srows, h1, Or.inl ⟨rfl, h2⟩⟩
    rw [executeSQLStatement_plain_char db stmt limits td srows hj hgbn hagg htd hscan]
      at hout
    have hr2len : (inMemoryStage db stmt srows).length =
        min k (whereFiltered td stmt.whereClause stmt.fromTable).length := by
      unfold inMemoryStage
      rcases hslen with ⟨hnat, hlen⟩ | ⟨hnat, hsrows⟩
      · rw [if_neg (by simp [hnat]), if_neg (by simp [hnat])]
        exact hlen
      · rw [if_pos ⟨by simp [hnat], hlt, by simp [hagg]⟩, hkval, List.length_take]
        congr 1
        split
        · rw [applyOrderBy_length, hsrows]
        · rw [hsrows]
    cases hpc : projectColumns (inMemoryStage db stmt srows) stmt.columns
        stmt.fromTable none with
    | error e => rw [hpc] at hout; exact absurd hout (by simp [Except.bind])
    | ok projected =>
      rw [hpc] at hout
      simp only [Except.bind, Except.ok.injEq] at hout
      subst hout
      rw [length_capped]
      rw [projectColumns_length_of_not_onlyFunctions _ _ _ _ _ hno hpc, hr2len]
      omega
  · intro s limits s' hgb0 hagg0 hmax hval
    unfold validateQueryLimits at hval
    simp only [hagg0] at hval
    split at hval
    · exact absurd hval (by simp)
    · split at hval
      · exact absurd hval (by simp)
      · split at hval
        · next h3 =>
          simp only [Except.ok.injEq] at hval
          refine ⟨limits.maxRows, ?_, hmax, ?_⟩
          · rw [← hval]
          · intro hlt
            exact absurd hlt h3.1
        · next h3 =>
          simp only [Except.ok.injEq] at hval
          have hlt : limTruthy s.limit = true := by
            by_contra hnlt
            exact h3 ⟨fun hc => hnlt hc, by simp [hgb0], trivial⟩
          cases hsl : s.limit with
          | none => rw [hsl] at hlt; exact absurd hlt (by simp [limTruthy])
          | some k =>
            refine ⟨k, by rw [← hval, hsl], ?_, fun _ => hval.symm⟩
            rw [hsl] at hlt
            simp only [limTruthy, ne_eq, decide_eq_true_eq] at hlt
            omega

def c4rows : List Row := [[("a", .vNum 7)]]

def c4db : Database := ⟨[("t", ⟨c4rows, [("ia", ["a"])]⟩)]⟩

/-- SELECT * FROM t@ia WHERE a > 1 AND a < 5 LIMIT 10 — a validated,
non-aggregate, non-grouped query carrying an index hint. -/
def c4stmt : SelectStatement :=
  { columns := [.star], fromTable := "t", fromIndex := some "ia", joins := none,
    whereClause := some (.and (.comparison none "a" .gt (.vNum 1))
      (.comparison none "a" .lt (.vNum 5))),
    groupBy := none, having := none, orderBy := none, limit := some 10 }

def c4limits : QueryLimits :=
  { maxRows := 10, maxLimit := 10, requireLimit := false, exemptTables := [] }

/-- C4 counterexample: with an index hint the row count does not follow
the claimed min(limit, WHERE-surviving rows, maxRows) formula — the
index narrowing keeps only the first condition per column and the
residual-filter check looks at field names, not consumed conditions, so
the a < 5 condition is dropped entirely: zero rows survive the WHERE
predicate, yet the query returns one row. -/
theorem executeSQLStatement_plain_rowcount_cex :
    validateQueryLimits c4stmt c4limits = .ok c4stmt ∧
    hasOnlyAggregateFunctions c4stmt = false ∧
    c4stmt.groupBy = none ∧
    (whereFiltered ⟨c4rows, [("ia", ["a"])]⟩ c4stmt.whereClause c4stmt.fromTable).length
      = 0 ∧
    executeSQLStatement c4db c4stmt c4limits = .ok [[("a", .vNum 7)]] ∧
    ([[("a", .vNum 7)]] : List Row).length ≠
      min (limVal c4stmt.limit) (min 0 c4limits.maxRows) := by
  refine ⟨by decide, by decide, by decide, by decide, by decide, by decide⟩

def c4wrows : List Row := [[("a", .vNum 1)], [("a", .vNum 2)], [("a", .vNum 3)]]

def c4wdb : Database := ⟨[("t", ⟨c4wrows, []⟩)]⟩

/-- SELECT * FROM t WHERE a > 1 LIMIT 2, no index hint. -/
def c4wstmt : SelectStatement :=
  { columns := [.star], fromTable := "t", fromIndex := none, joins := none,
    whereClause := some (.comparison none "a" .gt (.vNum 1)),
    groupBy := none, having := none, orderBy := none, limit := some 2 }

/-- C4 witness: the amended formula at a 3-row table (2 rows survive
WHERE, LIMIT 2, maxRows 10), and the validator's default assignment for
a missing LIMIT. -/
theorem executeSQLStatement_plain_rowcount_witness :
    (executeSQLStatement c4wdb c4wstmt c4limits = .ok [[("a", .vNum 2)], [("a", .vNum 3)]] ∧
     ([[("a", .vNum 2)], [("a", .vNum 3)]] : List Row).length =
       min 2 (min (whereFiltered ⟨c4wrows, []⟩ c4wstmt.whereClause c4wstmt.fromTable).length
         c4limits.maxRows)) ∧
    (∃ k, ({ c4wstmt with limit := some 10 } : SelectStatement).limit = some k ∧ 1 ≤ k ∧
      (limTruthy ({ c4wstmt with limit := none } : SelectStatement).limit = true →
        ({ c4wstmt with limit := some 10 } : SelectStatement) =
          { c4wstmt with limit := none })) :=
  ⟨⟨by decide,
    executeSQLStatement_plain_rowcount.1 c4wdb c4wstmt c4limits 2 ⟨c4wrows, []⟩
      [[("a", .vNum 2)], [("a", .vNum 3)]] (by decide) (by decide) (by decide) (by decide)
      (by decide) (by decide) (by decide) (by decide)⟩,
   executeSQLStatement_plain_rowcount.2 { c4wstmt with limit := none } c4limits
     { c4wstmt with limit := some 10 } (by decide) (by decide) (by decide) (by decide)⟩

/-! ## Index-hint lemmas

Dropping only the index hint of a statement leaves every other field
unchanged. -/

@[simp] theorem withNoIndex_columns (stmt : SelectStatement) :
    ({stmt with fromIndex := none} : SelectStatement).columns = stmt.columns := rfl

@[simp] theorem withNoIndex_fromTable (stmt : SelectStatement) :
    ({stmt with fromIndex := none} : SelectStatement).fromTable = stmt.fromTable := rfl

@[simp] theorem withNoIndex_joins (stmt : SelectStatement) :
    ({stmt with fromIndex := none} : SelectStatement).joins = stmt.joins := rfl

@[simp] theorem withNoIndex_whereClause (stmt : SelectStatement) :
    ({stmt with fromIndex := none} : SelectStatement).whereClause = stmt.whereClause := rfl

@[simp] theorem withNoIndex_groupBy (stmt : SelectStatement) :
    ({stmt with fromIndex := none} : SelectStatement).groupBy = stmt.groupBy := rfl

@[simp] theorem withNoIndex_orderBy (stmt : SelectStatement) :
    ({stmt with fromIndex := none} : SelectStatement).orderBy = stmt.orderBy := rfl

@[simp] theorem withNoIndex_limit (stmt : SelectStatement) :
    ({stmt with fromIndex := none} : SelectStatement).limit = stmt.limit := rfl

@[simp] theorem hasOnlyAggregateFunctions_withNoIndex (stmt : SelectStatement) :
    hasOnlyAggregateFunctions {stmt with fromIndex := none} =
      hasOnlyAggregateFunctions stmt := rfl

@[simp] theorem applyGroupBy_withNoIndex (results : List Row) (stmt : SelectStatement) :
    applyGroupBy results {stmt with fromIndex := none} = applyGroupBy results stmt := rfl

theorem canUseNativeOrdering_orderBy_none (db : Database) (stmt : SelectStatement)
    (h : stmt.orderBy = none) : canUseNativeOrdering db stmt = false := by
  unfold canUseNativeOrdering
  rw [h]

/-- An AND-only WHERE tree whose every comparison is unqualified or on
the given table: exactly the shape extractComparisonConditions captures
completely. -/
def andOnlyOwn (w : WhereClause) (t : String) : Bool :=
  match w with
  | .comparison tb _ _ _ => tb.isNone || tb = some t
  | .and l r => andOnlyOwn l t && andOnlyOwn r t
  | .or _ _ => false

/-- On an AND-only own-table tree the WHERE filter is the conjunction of
the extracted conditions. -/
theorem buildFilterExpression_eq_condsAll (w : WhereClause) (t : String)
    (hand : andOnlyOwn w t = true) (r : Row) :
    buildFilterExpression r w t =
      (extractComparisonConditions w t).all (condHolds r) := by
  induction w with
  | comparison tb f op v =>
    simp only [andOnlyOwn, Bool.or_eq_true, decide_eq_true_eq,
      Option.isNone_iff_eq_none] at hand
    rcases hand with h | h
    · subst h
      simp [buildFilterExpression, extractComparisonConditions, condHolds]
    · subst h
      simp [buildFilterExpression, extractComparisonConditions, condHolds]
  | and l rgt ihl ihr =>
    simp only [andOnlyOwn, Bool.and_eq_true] at hand
    simp [buildFilterExpression, extractComparisonConditions, List.all_append,
      ihl hand.1, ihr hand.2]
  | or l rgt ihl ihr => simp [andOnlyOwn] at hand

/-- Every constraint the index walk keeps is one of the extracted
conditions. -/
theorem buildIndexOps_mem (conds : List Cond) (allCols : List String) :
    ∀ (colsToGo : List String) (ops : List Cond),
      buildIndexOps conds allCols colsToGo = .ok ops → ∀ c ∈ ops, c ∈ conds := by
  intro colsToGo
  induction colsToGo with
  | nil =>
    intro ops h c hc
    simp only [buildIndexOps, Except.ok.injEq] at h
    subst h
    exact absurd hc (List.not_mem_nil c)
  | cons col rest ih =>
    intro ops h c hc
    cases hf : conds.find? (fun cd => cd.field = col) with
    | none =>
      simp only [buildIndexOps, hf] at h
      split at h
      · exact ih ops h c hc
      · exact absurd h (by simp)
    | some cond =>
      simp only [buildIndexOps, hf] at h
      cases hop : cond.op
      case ne =>
        rw [hop] at h
        exact absurd h (by simp)
      case eq =>
        rw [hop] at h
        simp only [bind, Except.instMonad, Except.bind] at h
        cases hrec : buildIndexOps conds allCols rest with
        | error e => rw [hrec] at h; exact absurd h (by simp)
        | ok ops' =>
          rw [hrec] at h
          simp only [Except.bind, Except.ok.injEq] at h
          subst h
          rcases List.mem_cons.mp hc with rfl | hmem
          · exact List.mem_of_find?_eq_some hf
          · exact ih ops' hrec c hmem
      all_goals
        rw [hop] at h
        simp only [bind, Except.instMonad, Except.bind] at h
        split at h
        · exact absurd h (by simp)
        · cases hrec : buildIndexOps conds allCols rest with
          | error e => rw [hrec] at h; exact absurd h (by simp)
          | ok ops' =>
            rw [hrec] at h
            simp only [Except.bind, Except.ok.injEq] at h
            subst h
            rcases List.mem_cons.mp hc with rfl | hmem
            · exact List.mem_of_find?_eq_some hf
            · exact ih ops' hrec c hmem

/-- If no comparison mentions a field outside the index columns, every
extracted condition's field is an index column. -/
theorem extract_fields_in_index (w : WhereClause) (t : String) (cols : List String)
    (hand : andOnlyOwn w t = true)
    (hres : hasConditionsNotInIndex w cols = false) :
    ∀ cd ∈ extractComparisonConditions w t, cd.field ∈ cols := by
  induction w with
  | comparison tb f op v =>
    intro cd hcd
    have hf : f ∈ cols := by
      simp only [hasConditionsNotInIndex, Bool.not_eq_false] at hres
      simpa using hres
    simp only [extractComparisonConditions] at hcd
    split at hcd
    · rw [List.mem_singleton.mp hcd]
      exact hf
    · exact absurd hcd (List.not_mem_nil cd)
  | and l rgt ihl ihr =>
    intro cd hcd
    simp only [andOnlyOwn, Bool.and_eq_true] at hand
    simp only [hasConditionsNotInIndex, Bool.or_eq_false_iff] at hres
    simp only [extractComparisonConditions, List.mem_append] at hcd
    rcases hcd with h | h
    · exact ihl hand.1 hres.1 cd h
    · exact ihr hand.2 hres.2 cd h
  | or l rgt ihl ihr =>
    intro cd hcd
    simp [andOnlyOwn] at hand

/-- With pairwise-distinct condition fields, every extracted condition
whose field is still to be walked ends up in the kept constraints. -/
theorem buildIndexOps_covers (conds : List Cond) (allCols : List String)
    (hnd : (conds.map Cond.field).Nodup) :
    ∀ (colsToGo : List String) (ops : List Cond),
      buildIndexOps conds allCols colsToGo = .ok ops →
      ∀ cd ∈ conds, cd.field ∈ colsToGo → cd ∈ ops := by
  intro colsToGo
  induction colsToGo with
  | nil =>
    intro ops h cd hcd hf
    exact absurd hf (List.not_mem_nil _)
  | cons col rest ih =>
    intro ops h cd hcd hf
    cases hfind : conds.find? (fun c => c.field = col) with
    | none =>
      simp only [buildIndexOps, hfind] at h
      split at h
      · next hre =>
        rcases List.mem_cons.mp hf with heq | hmem
        · have := List.find?_eq_none.mp hfind cd hcd
          simp [heq] at this
        · have hre' : rest = [] := List.isEmpty_iff.mp (by simpa using hre)
          rw [hre'] at hmem
          exact absurd hmem (List.not_mem_nil _)
      · exact absurd h (by simp)
    | some cond =>
      simp only [buildIndexOps, hfind] at h
      have hcondmem : cond ∈ conds := List.mem_of_find?_eq_some hfind
      have hcondfield : cond.field = col := by
        have := List.find?_some hfind
        simpa using this
      cases hop : cond.op
      case ne =>
        rw [hop] at h
        exact absurd h (by simp)
      case eq =>
        rw [hop] at h
        simp only [bind, Except.instMonad, Except.bind] at h
        cases hrec : buildIndexOps conds allCols rest with
        | error e => rw [hrec] at h; exact absurd h (by simp)
        | ok ops' =>
          rw [hrec] at h
          simp only [Except.bind, Except.ok.injEq] at h
          subst h
          rcases List.mem_cons.mp hf with heq | hmem
          · have hcd' : cd = cond :=
              List.inj_on_of_nodup_map hnd hcd hcondmem (by rw [heq, hcondfield])
            rw [hcd']
            exact List.mem_cons_self _ _
          · exact List.mem_cons_of_mem _ (ih ops' hrec cd hcd hmem)
      all_goals
        rw [hop] at h
        simp only [bind, Except.instMonad, Except.bind] at h
        split at h
        · exact absurd h (by simp)
        · next hre =>
          cases hrec : buildIndexOps conds allCols rest with
          | error e => rw [hrec] at h; exact absurd h (by simp)
          | ok ops' =>
            rw [hrec] at h
            simp only [Except.bind, Except.ok.injEq] at h
            subst h
            rcases List.mem_cons.mp hf with heq | hmem
            · have hcd' : cd = cond :=
                List.inj_on_of_nodup_map hnd hcd hcondmem (by rw [heq, hcondfield])
              rw [hcd']
              exact List.mem_cons_self _ _
            · have hre' : rest = [] := List.isEmpty_iff.mp (by simpa using hre)
              rw [hre'] at hmem
              exact absurd hmem (List.not_mem_nil _)

/-- Two condition lists with the same members constrain rows
identically. -/
theorem all_conds_eq (ops conds : List Cond) (r : Row)
    (h1 : ∀ c ∈ ops, c ∈ conds) (h2 : ∀ c ∈ conds, c ∈ ops) :
    ops.all (condHolds r) = conds.all (condHolds r) := by
  cases ho : ops.all (condHolds r) with
  | true =>
    rw [List.all_eq_true] at ho
    exact (List.all_eq_true.mpr (fun c hcm => ho c (h2 c hcm))).symm
  | false =>
    cases hc : conds.all (condHolds r) with
    | false => rfl
    | true =>
      rw [List.all_eq_true] at hc
      have : ops.all (condHolds r) = true :=
        List.all_eq_true.mpr (fun c hcm => hc c (h1 c hcm))
      rw [ho] at this
      exact absurd this (by simp)

/-- C6 (amended): for a non-JOIN query without ORDER BY whose WHERE
predicate is an AND-only tree of own-table comparisons with
pairwise-distinct extracted condition fields, and whose index hint
resolves and builds successfully, execution with the hint returns
exactly the same row list as execution without it (the kept index
constraints plus the residual filter reproduce the full WHERE
predicate). -/
theorem executeSQLStatement_indexHint_equiv (db : Database) (stmt : SelectStatement)
    (limits : QueryLimits) (idx : String) (w : WhereClause) (cols : List String)
    (td : TableData) (ops : List Cond)
    (hj : joinsTruthyNonempty stmt.joins = false)
    (hidx : stmt.fromIndex = some idx)
    (hw : stmt.whereClause = some w)
    (horder : stmt.orderBy = none)
    (hand : andOnlyOwn w stmt.fromTable = true)
    (hnd : ((extractComparisonConditions w stmt.fromTable).map Cond.field).Nodup)
    (htd : db.lookupTable stmt.fromTable = some td)
    (hcols : lookupIndexCols db stmt.fromTable idx = some cols)
    (hops : buildIndexOps (extractComparisonConditions w stmt.fromTable) cols cols
      = .ok ops) :
    executeSQLStatement db stmt limits =
      executeSQLStatement db {stmt with fromIndex := none} limits := by
  have hcano1 : canUseNativeOrdering db stmt = false :=
    canUseNativeOrdering_orderBy_none db stmt horder
  have hcano2 : canUseNativeOrdering db {stmt with fromIndex := none} = false :=
    canUseNativeOrdering_orderBy_none db _ horder
  have hfe : ∀ r, buildFilterExpression r w stmt.fromTable =
      (extractComparisonConditions w stmt.fromTable).all (condHolds r) :=
    buildFilterExpression_eq_condsAll w stmt.fromTable hand
  have hsub : ∀ c ∈ ops, c ∈ extractComparisonConditions w stmt.fromTable :=
    buildIndexOps_mem _ cols cols ops hops
  have hfind : td.indexes.find? (fun p => p.1 = idx) = some (idx, cols) := by
    unfold lookupIndexCols at hcols
    rw [htd] at hcols
    simp only [Option.bind] at hcols
    cases hfd : td.indexes.find? (fun p => p.1 = idx) with
    | none => rw [hfd] at hcols; exact absurd hcols (by simp)
    | some pr =>
      rw [hfd] at hcols
      simp only [Option.map_some', Option.some.injEq] at hcols
      have h1 : pr.1 = idx := by simpa using List.find?_some hfd
      rw [← h1, ← hcols]
  have happly : applyIndex db td.rows stmt.fromTable idx (some w) =
      .ok (td.rows.filter (fun r => ops.all (condHolds r))) := by
    unfold applyIndex
    rw [htd]
    simp only [hfind, buildIndexFilter, hops, bind, Except.instMonad, Except.bind]
  have hscaneq : scanRows db td stmt = scanRows db td {stmt with fromIndex := none} := by
    rw [scanRows_noIndex_noNative db td {stmt with fromIndex := none} rfl hcano2,
      withNoIndex_whereClause, withNoIndex_fromTable]
    unfold scanRows
    rw [hidx, hw, horder]
    simp only [happly, hcols, Option.getD_some, bind, Except.instMonad, Except.bind,
      pure, Except.pure, whereFiltered, hw]
    split
    · next hres =>
      rw [List.filter_filter]
      refine congrArg Except.ok (List.filter_congr ?_)
      intro r _
      rw [hfe r]
      cases hc : (extractComparisonConditions w stmt.fromTable).all (condHolds r) with
      | false => simp
      | true =>
        rw [List.all_eq_true] at hc
        have : ops.all (condHolds r) = true :=
          List.all_eq_true.mpr (fun c hcm => hc c (hsub c hcm))
        simp [this]
    · next hres =>
      have hres' : hasConditionsNotInIndex w cols = false := by
        simpa using hres
      have hcov : ∀ cd ∈ extractComparisonConditions w stmt.fromTable, cd ∈ ops :=
        fun cd hcd => buildIndexOps_covers _ cols hnd cols ops hops cd hcd
          (extract_fields_in_index w stmt.fromTable cols hand hres' cd hcd)
      refine congrArg Except.ok (List.filter_congr ?_)
      intro r _
      rw [hfe r]
      exact all_conds_eq ops _ r hsub hcov
  unfold executeSQLStatement
  simp only [withNoIndex_fromTable, withNoIndex_joins, withNoIndex_groupBy,
    withNoIndex_orderBy, withNoIndex_limit, withNoIndex_columns,
    hasOnlyAggregateFunctions_withNoIndex, applyGroupBy_withNoIndex, htd, hj,
    Bool.false_eq_true, if_false, hcano1, hcano2, hscaneq]

def c6rows : List Row := [[("a", .vNum 7)]]

def c6db : Database := ⟨[("t", ⟨c6rows, [("ia", ["a"])]⟩)]⟩

/-- SELECT * FROM t@ia WHERE a > 1 AND a < 5 — two conditions on the
same (covered) index column. -/
def c6stmt : SelectStatement :=
  { columns := [.star], fromTable := "t", fromIndex := some "ia", joins := none,
    whereClause := some (.and (.comparison none "a" .gt (.vNum 1))
      (.comparison none "a" .lt (.vNum 5))),
    groupBy := none, having := none, orderBy := none, limit := none }

def c6limits : QueryLimits :=
  { maxRows := 10, maxLimit := 10, requireLimit := false, exemptTables := [] }

/-- C6 counterexample: the index ia fully covers the WHERE predicate
(both conditions are on its column a), yet the hinted query returns the
row a = 7 while the unhinted one returns nothing — not the same multiset
under any reordering. buildIndexFilter keeps only the first condition
per column and the residual-filter check tests field membership, so
a < 5 is never re-applied. -/
theorem executeSQLStatement_indexHint_equiv_cex :
    executeSQLStatement c6db c6stmt c6limits = .ok [[("a", .vNum 7)]] ∧
    executeSQLStatement c6db { c6stmt with fromIndex := none } c6limits = .ok [] ∧
    ¬ ([[("a", .vNum 7)]] : List Row).Perm [] := by
  refine ⟨by decide, by decide, by decide⟩

def c6wrows : List Row := [[("a", .vNum 2)], [("a", .vNum 3)]]

def c6wdb : Database := ⟨[("t", ⟨c6wrows, [("ia", ["a"])]⟩)]⟩

/-- SELECT * FROM t@ia WHERE a = 2 — a single equality condition. -/
def c6wstmt : SelectStatement :=
  { columns := [.star], fromTable := "t", fromIndex := some "ia", joins := none,
    whereClause := some (.comparison none "a" .eq (.vNum 2)),
    groupBy := none, having := none, orderBy := none, limit := none }

/-- C6 witness: the amended equivalence at a concrete hinted query with
one equality condition per index column. -/
theorem executeSQLStatement_indexHint_equiv_witness :
    executeSQLStatement c6wdb c6wstmt c6limits =
      executeSQLStatement c6wdb { c6wstmt with fromIndex := none } c6limits ∧
    executeSQLStatement c6wdb c6wstmt c6limits = .ok [[("a", .vNum 2)]] :=
  ⟨executeSQLStatement_indexHint_equiv c6wdb c6wstmt c6limits "ia"
      (.comparison none "a" .eq (.vNum 2)) ["a"] ⟨c6wrows, [("ia", ["a"])]⟩
      [⟨"a", .eq, .vNum 2⟩] (by decide) (by decide) (by decide) (by decide) (by decide)
      (by decide) (by decide) (by decide) (by decide),
   by decide⟩

/-! ## C1 — the maxRows cap is bypassed on the non-JOIN GROUP BY path -/

/-- SELECT status, COUNT(*) AS c FROM users GROUP BY status — accepted
by the validator with no LIMIT (GROUP BY queries are exempt). -/
def c1stmt : SelectStatement :=
  { columns := [.column none "status" none, .function "COUNT" [.star] (some "c")],
    fromTable := "users", fromIndex := none, joins := none, whereClause := none,
    groupBy := some [{ table := none, field := "status" }], having := none,
    orderBy := none, limit := none }

def c1db : Database :=
  ⟨[("users", ⟨[[("status", .vStr "a")], [("status", .vStr "b")], [("status", .vStr "c")]],
    []⟩)]⟩

def c1limits : QueryLimits :=
  { maxRows := 2, maxLimit := 2, requireLimit := true, exemptTables := [] }

/-- C1 (failing input): the query above passes validateQueryLimits
unchanged, yet executeSQLStatement returns three group rows under
limits.maxRows = 2 — the final maxRows cap is not applied on the
GROUP BY path without JOINs (the early return at limits.ts line 255),
while the sibling JOIN + GROUP BY path does cap (lines 349-356). -/
theorem executeSQLStatement_groupBy_cap_bypassed :
    validateQueryLimits c1stmt c1limits = .ok c1stmt ∧
    executeSQLStatement c1db c1stmt c1limits =
      .ok [[("status", .vStr "a"), ("c", .vNum 1)],
           [("status", .vStr "b"), ("c", .vNum 1)],
           [("status", .vStr "c"), ("c", .vNum 1)]] ∧
    c1limits.maxRows = 2 ∧
    ([[("status", .vStr "a"), ("c", .vNum 1)],
      [("status", .vStr "b"), ("c", .vNum 1)],
      [("status", .vStr "c"), ("c", .vNum 1)]] : List Row).length = 3 := by
  refine ⟨by decide, by decide, by decide, by decide⟩

end ConvexSQL

